import Mathlib

/-!
Verification development for the Zotero export extension
(`src/export/naming.ts`, `src/export/exporter.ts`, `src/export/markdown.ts`,
`src/zotero/queries.ts`).

The TypeScript source is shallowly embedded:
* strings are modelled as Lean `String` / `List Char` (one JS UTF-16 code unit
  is modelled as one `Char`; all characters relevant to the verified claims
  are in the ASCII/BMP range where this is exact);
* the external Unicode NFKD normalizer (`String.prototype.normalize('NFKD')`)
  is an abstract parameter `normalize : String → String`;
* the filesystem is a pair of path lists (files and directories), and
  fallible filesystem syscalls are parameterised by a fault oracle so that
  "any exception" can be quantified over;
* the sql.js relational store is a record of row lists, and each SQL query is
  translated into the corresponding relational computation over those lists.
-/

set_option maxRecDepth 10000
set_option maxHeartbeats 1600000

namespace ZoteroSpec

/-! ### JS string helpers -/

/-- The JavaScript `\s` / `trim()` whitespace class (ASCII part plus the
Unicode space separators and BOM used by ECMA-262). -/
def jsWsChar (c : Char) : Bool :=
  c = ' ' || c = '\t' || c = '\n' || c = '\r' || c.toNat = 0xb || c.toNat = 0xc ||
  c.toNat = 0xa0 || c.toNat = 0x1680 ||
  (0x2000 ≤ c.toNat && c.toNat ≤ 0x200a) ||
  c.toNat = 0x2028 || c.toNat = 0x2029 || c.toNat = 0x202f || c.toNat = 0x205f ||
  c.toNat = 0x3000 || c.toNat = 0xfeff

/-- Characters kept by `sanitizeSegment`'s first replace: the class
`[a-zA-Z0-9._\-\s]` (everything else is removed). -/
def keepSegChar (c : Char) : Bool :=
  c.isAlphanum || c = '.' || c = '_' || c = '-' || jsWsChar c

/-- Characters stripped from both ends by `replace(/^[-.]+|[-.]+$/g, '')`. -/
def hyDotChar (c : Char) : Bool :=
  c = '-' || c = '.'

/-- `String.prototype.trim()` on a character list. -/
def jsTrimList (l : List Char) : List Char :=
  ((l.dropWhile jsWsChar).reverse.dropWhile jsWsChar).reverse

/-- `String.prototype.trim()`. -/
def jsTrimStr (s : String) : String :=
  ⟨jsTrimList s.data⟩

/-- `replace(/X+/g, out)` where `X` is the character class `isRun`:
every maximal run of `isRun`-characters is replaced by the single
character `out`.  The boolean argument records whether the previous
character was part of a run. -/
def collapseRuns (isRun : Char → Bool) (out : Char) : Bool → List Char → List Char
  | _, [] => []
  | inRun, c :: rest =>
    if isRun c then
      if inRun then collapseRuns isRun out true rest
      else out :: collapseRuns isRun out true rest
    else c :: collapseRuns isRun out false rest

/-- ASCII lower-casing of a character list (JS `toLowerCase` and SQLite
`LOWER` agree with this on the ASCII range used here). -/
def lowerL (l : List Char) : List Char :=
  l.map Char.toLower

/-- ASCII lower-casing of a string. -/
def lowerStr (s : String) : String :=
  ⟨lowerL s.data⟩

/-! ### Filesystem model

`FS` models the destination tree: the set of existing file paths and
directory paths.  `pathExists` in `naming.ts` is an `fs.access` probe that
never throws (it returns `false` on error). -/

structure FS where
  files : List String
  dirs : List String
deriving DecidableEq

/-- `pathExists(targetPath)` from `src/export/naming.ts`. -/
def pathExistsB (fs : FS) (p : String) : Bool :=
  fs.files.contains p || fs.dirs.contains p

/-! ### naming.ts -/

/-- Maximal sanitized segment length (`MAX_SLUG_LENGTH` in `naming.ts`). -/
def MAX_SLUG_LENGTH : Nat := 80

/-- `replace(/^[-.]+|[-.]+$/g, '')`: strip one leading and one trailing run
of hyphens/dots. -/
def stripHyDotEnds (l : List Char) : List Char :=
  ((l.dropWhile hyDotChar).reverse.dropWhile hyDotChar).reverse

/-- `sanitizeSegment` up to (but not including) the final
`.slice(0, MAX_SLUG_LENGTH)`: normalize (abstract NFKD), remove characters
outside `[a-zA-Z0-9._\-\s]`, trim, collapse whitespace runs to single
hyphens, collapse hyphen runs, strip leading/trailing hyphens and dots. -/
def sanitizePreTrunc (normalize : String → String) (input : String) : List Char :=
  stripHyDotEnds
    (collapseRuns (fun c => c = '-') '-' false
      (collapseRuns jsWsChar '-' false
        (jsTrimList ((normalize input).data.filter keepSegChar))))

/-- `sanitizeSegment(input)` from `src/export/naming.ts`. -/
def sanitizeSegment (normalize : String → String) (input : String) : String :=
  ⟨(sanitizePreTrunc normalize input).take MAX_SLUG_LENGTH⟩

/-- `buildItemSlug(item)` from `src/export/naming.ts`
(`item` enters through its `key` and `title` fields). -/
def buildItemSlug (normalize : String → String) (key title : String) : String :=
  let titlePart :=
    if sanitizeSegment normalize title = "" then "untitled"
    else sanitizeSegment normalize title
  ⟨(key ++ "-" ++ titlePart).data.take (MAX_SLUG_LENGTH + key.length + 1)⟩

/-! #### node:path helpers (POSIX flavour, as used on the export paths) -/

/-- Separator class of the `split(/[/\\]/)` regex in
`deriveAttachmentFilename`. -/
def sepChar (c : Char) : Bool :=
  c = '/' || c = '\\'

/-- `path.join(a, b)` for the shapes used here (no `..` segments). -/
def pathJoin (a b : String) : String :=
  if a = "" then b
  else if a = "/" then "/" ++ b
  else a ++ "/" ++ b

/-- `path.basename(p)` (POSIX). -/
def pathBasename (p : String) : String :=
  ⟨(p.data.reverse.takeWhile (fun c => c ≠ '/')).reverse⟩

/-- `path.dirname(p)` (POSIX). -/
def pathDirname (p : String) : String :=
  match p.data.reverse.dropWhile (fun c => c ≠ '/') with
  | [] => "."
  | [_] => "/"
  | _ :: rest => ⟨rest.reverse⟩

/-- `path.parse(p).dir` (POSIX): like `dirname` but `''` when `p` has no
separator. -/
def pathParseDir (p : String) : String :=
  match p.data.reverse.dropWhile (fun c => c ≠ '/') with
  | [] => ""
  | [_] => "/"
  | _ :: rest => ⟨rest.reverse⟩

/-- Split a basename into `(name, ext)` following `path.parse`: the
extension starts at the last dot, unless that dot is the first character. -/
def splitExtChars (base : List Char) : List Char × List Char :=
  match base.reverse.findIdx? (fun c => c = '.') with
  | none => (base, [])
  | some j =>
    let i := base.length - 1 - j
    if 0 < i then (base.take i, base.drop i) else (base, [])

/-- `path.parse(p).name` (POSIX). -/
def pathParseName (p : String) : String :=
  ⟨(splitExtChars (pathBasename p).data).1⟩

/-- `path.parse(p).ext` (POSIX). -/
def pathParseExt (p : String) : String :=
  ⟨(splitExtChars (pathBasename p).data).2⟩

/-- `sanitizeFilename(filename)` from `src/export/naming.ts`. -/
def sanitizeFilename (normalize : String → String) (filename : String) : String :=
  let nameSan := sanitizeSegment normalize (pathParseName filename)
  let name := if nameSan = "" then "attachment" else nameSan
  let ext : String := ⟨(pathParseExt filename).data.filter (fun c => c.isAlphanum || c = '.')⟩
  name ++ ext

/-- The three layout policies of `resolveItemOutputPaths`. -/
inductive LayoutMode where
  | itemFolder
  | flat
  | yearItem
deriving DecidableEq

/-- Result record of `resolveItemOutputPaths` (the source field `flatPrefix`
is called `flatPfx` here). -/
structure ItemOutputPaths where
  itemFolder : Option String := none
  markdownPath : String
  flatPfx : Option String := none
deriving DecidableEq

/-- `resolveItemOutputPaths(outputRoot, layoutMode, slug, year)` from
`src/export/naming.ts`. -/
def resolveItemOutputPaths (normalize : String → String) (outputRoot : String)
    (layoutMode : LayoutMode) (slug : String) (year : Option String) : ItemOutputPaths :=
  match layoutMode with
  | .flat =>
    { markdownPath := pathJoin outputRoot (slug ++ ".md")
      flatPfx := some (slug ++ "__") }
  | .yearItem =>
    let yRaw := if year.getD "" = "" then "unknown-year" else year.getD ""
    let ySan := sanitizeSegment normalize yRaw
    let yearFolder := if ySan = "" then "unknown-year" else ySan
    let folder := pathJoin (pathJoin outputRoot yearFolder) slug
    { itemFolder := some folder, markdownPath := pathJoin folder "item.md" }
  | .itemFolder =>
    let folder := pathJoin outputRoot slug
    { itemFolder := some folder, markdownPath := pathJoin folder "item.md" }

/-- The probe candidate `path.join(parsed.dir, name-suffix+ext)` tried by
`makeUniqueFilePath` for suffix `k`. -/
def uniqueCandidate (dir name ext : String) (k : Nat) : String :=
  pathJoin dir (name ++ "-" ++ Nat.repr k ++ ext)

/-- The `while (true)` probe loop of `makeUniqueFilePath`, made total with
fuel; the fuel passed by `makeUniqueFilePath` always suffices because the
filesystem is finite (see `uniqueSuffixLoop_eq_of_least`). -/
def uniqueSuffixLoop (fs : FS) (dir name ext : String) : Nat → Nat → String
  | 0, k => uniqueCandidate dir name ext k
  | fuel + 1, k =>
    if pathExistsB fs (uniqueCandidate dir name ext k) then
      uniqueSuffixLoop fs dir name ext fuel (k + 1)
    else uniqueCandidate dir name ext k

/-- `makeUniqueFilePath(targetPath)` from `src/export/naming.ts`. -/
def makeUniqueFilePath (fs : FS) (targetPath : String) : String :=
  if pathExistsB fs targetPath then
    uniqueSuffixLoop fs (pathParseDir targetPath) (pathParseName targetPath)
      (pathParseExt targetPath) (fs.files.length + fs.dirs.length + 1) 2
  else targetPath

/-! ### List helpers shared by the query embedding -/

/-- Boolean prefix test (`String.prototype.startsWith`). -/
def startsWithL (l p : List Char) : Bool :=
  p.isPrefixOf l

/-- Boolean suffix test (`String.prototype.endsWith`, SQL `LIKE '%x'`). -/
def endsWithL (l s : List Char) : Bool :=
  s.isSuffixOf l

/-- Boolean substring test (`String.prototype.includes`, SQL `LIKE '%x%'`). -/
def containsSubL : List Char → List Char → Bool
  | [], s => s.isEmpty
  | a :: t, s => s.isPrefixOf (a :: t) || containsSubL t s

/-- Insert into a `le`-sorted list (helper for `insSortBy`). -/
def orderedIns (le : α → α → Bool) (x : α) : List α → List α
  | [] => [x]
  | y :: ys => if le x y then x :: y :: ys else y :: orderedIns le x ys

/-- Insertion sort, used to model SQL `ORDER BY`. -/
def insSortBy (le : α → α → Bool) : List α → List α
  | [] => []
  | x :: xs => orderedIns le x (insSortBy le xs)

/-- SQLite ascending comparison on a nullable TEXT column
(`NULL` sorts before every string; strings compare bytewise). -/
def sqlStrLtOpt (a b : Option String) : Bool :=
  match a, b with
  | none, none => false
  | none, some _ => true
  | some _, none => false
  | some x, some y => compare x y = .lt

/-! ### Domain records (src/types.ts) -/

structure ZoteroCreator where
  firstName : Option String := none
  lastName : Option String := none
  name : Option String := none
  creatorType : Option String := none
  orderIndex : Nat
  displayName : String
deriving DecidableEq

structure ZoteroAttachment where
  itemId : Nat
  key : String
  title : Option String := none
  contentType : Option String := none
  linkMode : Option Nat := none
  path : Option String := none
  filename : Option String := none
  isPdf : Bool
deriving DecidableEq

/-- `ZoteroAnnotation` in `src/types.ts` (renamed here). -/
structure ZoteroAnnotationRec where
  itemId : Nat
  parentItemId : Nat
  type : Option String := none
  text : Option String := none
  comment : Option String := none
  color : Option String := none
  pageLabel : Option String := none
  sortIndex : Option String := none
  position : Option String := none
deriving DecidableEq

structure ZoteroNote where
  itemId : Nat
  parentItemId : Nat
  title : Option String := none
  noteHtml : String
  noteMarkdown : Option String := none
deriving DecidableEq

structure ZoteroItemSummary where
  itemId : Nat
  key : String
  libraryId : Nat
  libraryName : String
  itemType : String
  title : String
  creatorsText : String
  date : Option String := none
  year : Option String := none
  dateAdded : Option String := none
  dateModified : Option String := none
  doi : Option String := none
  tagsText : Option String := none
  pdfCount : Nat
  hasPdf : Bool
  noteCount : Nat
deriving DecidableEq

structure ZoteroItem where
  itemId : Nat
  key : String
  libraryId : Nat
  libraryName : String
  itemType : String
  title : String
  creators : List ZoteroCreator
  year : Option String := none
  date : Option String := none
  publicationTitle : Option String := none
  volume : Option String := none
  issue : Option String := none
  pages : Option String := none
  publisher : Option String := none
  place : Option String := none
  language : Option String := none
  doi : Option String := none
  url : Option String := none
  tags : List String
  collections : List String
  abstract : Option String := none
  dateAdded : Option String := none
  dateModified : Option String := none
  extra : Option String := none
  attachments : List ZoteroAttachment
  notes : List ZoteroNote
  annotations : List ZoteroAnnotationRec
deriving DecidableEq

/-! ### Relational store model (the Zotero sqlite schema slice read by
`src/zotero/queries.ts`) -/

structure ItemRow where
  itemID : Nat
  itemTypeID : Nat
  libraryID : Nat
  key : String
  dateAdded : Option String := none
  dateModified : Option String := none
deriving DecidableEq

structure ItemTypeRow where
  itemTypeID : Nat
  typeName : String
deriving DecidableEq

structure LibraryRow where
  libraryID : Nat
  type : String
deriving DecidableEq

structure GroupRow where
  libraryID : Nat
  name : String
deriving DecidableEq

structure FieldRow where
  fieldID : Nat
  fieldName : String
deriving DecidableEq

structure ItemDataRow where
  itemID : Nat
  fieldID : Nat
  valueID : Nat
deriving DecidableEq

structure ValueRow where
  valueID : Nat
  value : String
deriving DecidableEq

structure CreatorRow where
  creatorID : Nat
  firstName : Option String := none
  lastName : Option String := none
  fieldMode : Option Nat := none
deriving DecidableEq

structure CreatorTypeRow where
  creatorTypeID : Nat
  creatorType : String
deriving DecidableEq

structure ItemCreatorRow where
  itemID : Nat
  creatorID : Nat
  creatorTypeID : Nat
  orderIndex : Nat
deriving DecidableEq

structure TagRow where
  tagID : Nat
  name : String
deriving DecidableEq

structure ItemTagRow where
  itemID : Nat
  tagID : Nat
deriving DecidableEq

structure AttachmentRow where
  itemID : Nat
  parentItemID : Option Nat := none
  contentType : Option String := none
  linkMode : Option Nat := none
  path : Option String := none
deriving DecidableEq

structure NoteRow where
  itemID : Nat
  parentItemID : Option Nat := none
  title : Option String := none
  note : Option String := none
deriving DecidableEq

structure AnnotationRow where
  itemID : Nat
  parentItemID : Option Nat := none
  type : Option String := none
  text : Option String := none
  comment : Option String := none
  color : Option String := none
  pageLabel : Option String := none
  sortIndex : Option String := none
  position : Option String := none
deriving DecidableEq

structure CollectionRow where
  collectionID : Nat
  key : String
  libraryID : Nat
  collectionName : String
  parentCollectionID : Option Nat := none
deriving DecidableEq

structure CollectionItemRow where
  collectionID : Nat
  itemID : Nat
deriving DecidableEq

structure ZoteroDB where
  items : List ItemRow := []
  itemTypes : List ItemTypeRow := []
  libraries : List LibraryRow := []
  groups : List GroupRow := []
  fields : List FieldRow := []
  itemData : List ItemDataRow := []
  itemDataValues : List ValueRow := []
  creators : List CreatorRow := []
  creatorTypes : List CreatorTypeRow := []
  itemCreators : List ItemCreatorRow := []
  tags : List TagRow := []
  itemTags : List ItemTagRow := []
  itemAttachments : List AttachmentRow := []
  itemNotes : List NoteRow := []
  itemAnnotations : List AnnotationRow := []
  collections : List CollectionRow := []
  collectionItems : List CollectionItemRow := []
deriving DecidableEq

/-- Error taxonomy of the export path: the aggregate-load failure thrown by
`getItemExportData` and I/O faults raised by filesystem syscalls. -/
inductive ExportError where
  | notFound (itemId : Nat)
  | ioFault (op : String) (path : String)
deriving DecidableEq

/-! ### queries.ts — scalar helpers -/

/-- First run of four consecutive decimal digits (`match(/(\d{4})/)`). -/
def firstFourDigitRun : List Char → Option String
  | a :: b :: c :: d :: rest =>
    if a.isDigit && b.isDigit && c.isDigit && d.isDigit then some ⟨[a, b, c, d]⟩
    else firstFourDigitRun (b :: c :: d :: rest)
  | _ => none

/-- `extractYear(dateValue)` from `src/zotero/queries.ts`. -/
def extractYear (dateValue : Option String) : Option String :=
  match dateValue with
  | none => none
  | some s => if s = "" then none else firstFourDigitRun s.data

/-- `creatorDisplayName(creator)` from `src/zotero/queries.ts`. -/
def creatorDisplayName (name firstName lastName : Option String) : String :=
  if jsTrimStr (name.getD "") ≠ "" then jsTrimStr (name.getD "")
  else
    String.intercalate ", "
      (([lastName.map jsTrimStr, firstName.map jsTrimStr].filterMap id).filter (fun s => s ≠ ""))

/-- SQLite `TRIM` (strips spaces from both ends). -/
def sqlTrim (s : String) : String :=
  ⟨((s.data.dropWhile (fun c => c = ' ')).reverse.dropWhile (fun c => c = ' ')).reverse⟩

/-- SQL `MAX` aggregate over TEXT values (bytewise maximum, `none` for an
empty group). -/
def sqlMaxStr (l : List String) : Option String :=
  l.foldl
    (fun acc v =>
      match acc with
      | none => some v
      | some w => some (if compare w v = Ordering.lt then v else w))
    none

/-! ### queries.ts — the summary query (`baseItemSummariesSql` + `mapSummary`) -/

/-- Values of the EAV field `fieldName` attached to `itemId`
(`itemData ⋈ fields ⋈ itemDataValues`), in store order. -/
def fieldValuesFor (db : ZoteroDB) (itemId : Nat) (fieldName : String) : List String :=
  (db.itemData.filter (fun r => r.itemID = itemId)).filterMap fun r =>
    match db.fields.find? (fun f => f.fieldID = r.fieldID),
        db.itemDataValues.find? (fun v => v.valueID = r.valueID) with
    | some f, some v => if f.fieldName = fieldName then some v.value else none
    | _, _ => none

/-- One `field_values` cell: `MAX(CASE WHEN f.fieldName=… THEN v.value END)`. -/
def fieldMaxOf (db : ZoteroDB) (itemId : Nat) (fieldName : String) : Option String :=
  sqlMaxStr (fieldValuesFor db itemId fieldName)

/-- One `creator_values` summand:
`TRIM(COALESCE(lastName,'') || CASE WHEN firstName IS NOT NULL AND firstName != '' THEN ', ' || firstName ELSE '' END)`. -/
def creatorConcatRow (c : CreatorRow) : String :=
  sqlTrim
    ((c.lastName.getD "") ++
      match c.firstName with
      | some f => if f = "" then "" else ", " ++ f
      | none => "")

/-- `creator_values.creatorsText` (`GROUP_CONCAT(…, '; ')`; `none` when the
item has no creators, as with the SQL `LEFT JOIN`). -/
def creatorsTextOf (db : ZoteroDB) (itemId : Nat) : Option String :=
  let parts :=
    (db.itemCreators.filter (fun ic => ic.itemID = itemId)).filterMap fun ic =>
      (db.creators.find? (fun c => c.creatorID = ic.creatorID)).map creatorConcatRow
  if parts.isEmpty then none else some (String.intercalate "; " parts)

/-- `tag_values.tagsText` (`GROUP_CONCAT(t.name, '; ')`). -/
def tagsTextOf (db : ZoteroDB) (itemId : Nat) : Option String :=
  let parts :=
    (db.itemTags.filter (fun it => it.itemID = itemId)).filterMap fun it =>
      (db.tags.find? (fun t => t.tagID = it.tagID)).map (fun t => t.name)
  if parts.isEmpty then none else some (String.intercalate "; " parts)

/-- The per-attachment predicate summed by `attachment_values.pdfCount`:
`LOWER(COALESCE(contentType,'')) LIKE '%pdf%' OR LOWER(COALESCE(path,'')) LIKE '%.pdf'`. -/
def pdfTestSql (r : AttachmentRow) : Bool :=
  containsSubL (lowerL (r.contentType.getD "").data) "pdf".data ||
  endsWithL (lowerL (r.path.getD "").data) ".pdf".data

/-- The attachment rows grouped under `itemId` by `attachment_values`. -/
def attachmentRowsOf (db : ZoteroDB) (itemId : Nat) : List AttachmentRow :=
  db.itemAttachments.filter (fun r => r.parentItemID = some itemId)

/-- `attachment_values.pdfCount` for one item. -/
def pdfCountOf (db : ZoteroDB) (itemId : Nat) : Nat :=
  (attachmentRowsOf db itemId).countP pdfTestSql

/-- `note_targets` restricted to root `itemId`: the item itself plus its
attachments. -/
def noteTargetsOf (db : ZoteroDB) (itemId : Nat) : List Nat :=
  itemId :: (attachmentRowsOf db itemId).map (fun r => r.itemID)

/-- `note_values.noteCount` for one item:
`COUNT(DISTINCT n.itemID)` over `note_targets ⋈ itemNotes`. -/
def noteCountOf (db : ZoteroDB) (itemId : Nat) : Nat :=
  (((noteTargetsOf db itemId).flatMap fun t =>
      db.itemNotes.filter (fun n => n.parentItemID = some t)).map (fun n => n.itemID)).dedup.length

/-- `library_names.libraryName` (`COALESCE(g.name, CASE WHEN l.type='user'
THEN 'My Library' ELSE 'Library '||l.libraryID END)`; `none` when the
library row is missing, as with the outer `LEFT JOIN library_names`). -/
def libraryNameOf (db : ZoteroDB) (libId : Nat) : Option String :=
  match db.libraries.find? (fun l => l.libraryID = libId) with
  | none => none
  | some l =>
    match db.groups.find? (fun g => g.libraryID = libId) with
    | some g => some g.name
    | none => some (if l.type = "user" then "My Library" else "Library " ++ Nat.repr libId)

/-- The raw row shape produced by `baseItemSummariesSql`. -/
structure BaseItemRow where
  itemID : Nat
  key : String
  libraryID : Nat
  libraryName : Option String
  itemType : String
  title : Option String
  creatorsText : Option String
  date : Option String
  dateAdded : Option String
  dateModified : Option String
  doi : Option String
  tagsText : Option String
  pdfCount : Option Nat
  noteCount : Option Nat
deriving DecidableEq

/-- The row of `baseItemSummariesSql` for one item identifier (`none` when
the item is absent, its type row is absent, or its type is
attachment/note/annotation — the query's `WHERE` filter). -/
def getBaseItemRow (db : ZoteroDB) (itemId : Nat) : Option BaseItemRow :=
  match db.items.find? (fun i => i.itemID = itemId) with
  | none => none
  | some i =>
    match db.itemTypes.find? (fun t => t.itemTypeID = i.itemTypeID) with
    | none => none
    | some t =>
      if t.typeName = "attachment" || t.typeName = "note" || t.typeName = "annotation" then none
      else
        some
          { itemID := i.itemID
            key := i.key
            libraryID := i.libraryID
            libraryName := libraryNameOf db i.libraryID
            itemType := t.typeName
            title := fieldMaxOf db itemId "title"
            creatorsText := creatorsTextOf db itemId
            date := fieldMaxOf db itemId "date"
            dateAdded := i.dateAdded
            dateModified := i.dateModified
            doi := fieldMaxOf db itemId "DOI"
            tagsText := tagsTextOf db itemId
            pdfCount :=
              if (attachmentRowsOf db itemId).isEmpty then none
              else some (pdfCountOf db itemId)
            noteCount :=
              if noteCountOf db itemId = 0 then none else some (noteCountOf db itemId) }

/-- `mapSummary(row)` from `src/zotero/queries.ts`. -/
def mapSummary (row : BaseItemRow) : ZoteroItemSummary :=
  let pdfCount := row.pdfCount.getD 0
  let noteCount := row.noteCount.getD 0
  { itemId := row.itemID
    key := row.key
    libraryId := row.libraryID
    libraryName := row.libraryName.getD ("Library " ++ Nat.repr row.libraryID)
    itemType := row.itemType
    title := if jsTrimStr (row.title.getD "") = "" then "Untitled" else jsTrimStr (row.title.getD "")
    creatorsText := jsTrimStr (row.creatorsText.getD "")
    date := row.date
    year := extractYear row.date
    dateAdded := row.dateAdded
    dateModified := row.dateModified
    doi := row.doi
    tagsText := row.tagsText
    pdfCount := pdfCount
    hasPdf := decide (pdfCount > 0)
    noteCount := noteCount }

/-- The summary produced for one item identifier (shared core of
`searchItems` / `getItemSummariesByIds`). -/
def getItemSummary (db : ZoteroDB) (itemId : Nat) : Option ZoteroItemSummary :=
  (getBaseItemRow db itemId).map mapSummary

/-- The search `WHERE` clause of `searchItems`: the empty query matches
everything, otherwise case-insensitive substring match on title, creators,
date, DOI and tags. -/
def rowMatchesSearch (normalized : String) (row : BaseItemRow) : Bool :=
  let lk : Option String → Bool := fun s =>
    containsSubL (lowerL (s.getD "").data) (lowerL normalized.data)
  normalized = "" || lk row.title || lk row.creatorsText || lk row.date || lk row.doi ||
    lk row.tagsText

/-- `searchItems(db, searchText, limit)` from `src/zotero/queries.ts`
(`ORDER BY b.dateModified DESC LIMIT ?`). -/
def searchItems (db : ZoteroDB) (searchText : String) (limit : Nat) : List ZoteroItemSummary :=
  let normalized := jsTrimStr searchText
  let rows := db.items.filterMap (fun i => getBaseItemRow db i.itemID)
  let matched := rows.filter (rowMatchesSearch normalized)
  ((insSortBy (fun a b => !sqlStrLtOpt a.dateModified b.dateModified) matched).take limit).map
    mapSummary

/-! ### queries.ts — the aggregate loader -/

/-- `getFieldMap(db, itemId)`: EAV rows collapsed to an ordered
name→value association, later duplicates semicolon-appended. -/
def assocAppendField : List (String × String) → String → String → List (String × String)
  | [], fn, v => [(fn, v)]
  | (k, w) :: rest, fn, v =>
    if k = fn then (k, w ++ "; " ++ v) :: rest
    else (k, w) :: assocAppendField rest fn v

/-- The `(fieldName, value)` rows feeding `getFieldMap`, in store order. -/
def fieldRowsFor (db : ZoteroDB) (itemId : Nat) : List (String × String) :=
  (db.itemData.filter (fun r => r.itemID = itemId)).filterMap fun r =>
    match db.fields.find? (fun f => f.fieldID = r.fieldID),
        db.itemDataValues.find? (fun v => v.valueID = r.valueID) with
    | some f, some v => some (f.fieldName, v.value)
    | _, _ => none

/-- `getFieldMap(db, itemId)` from `src/zotero/queries.ts`. -/
def getFieldMap (db : ZoteroDB) (itemId : Nat) : List (String × String) :=
  (fieldRowsFor db itemId).foldl (fun m fv => assocAppendField m fv.1 fv.2) []

/-- Field-map access (`fields.x` in `getItemExportData`). -/
def lookupField (m : List (String × String)) (n : String) : Option String :=
  (m.find? (fun kv => kv.1 = n)).map (fun kv => kv.2)

/-- JS `trimmed.split(/[/\\]/)` (split keeping empty segments). -/
def splitSeps : List Char → List (List Char)
  | [] => [[]]
  | c :: rest =>
    if sepChar c then [] :: splitSeps rest
    else
      match splitSeps rest with
      | [] => [[c]]
      | s :: ss => (c :: s) :: ss

/-- `deriveAttachmentFilename(attachmentPath, key)` from
`src/zotero/queries.ts`. -/
def deriveAttachmentFilename (attachmentPath : Option String) (key : String) : String :=
  match attachmentPath with
  | none => key ++ ".pdf"
  | some ap =>
    if ap = "" then key ++ ".pdf"
    else
      let withoutStorage : String :=
        if startsWithL ap.data "storage:".data then ⟨ap.data.drop 8⟩ else ap
      let trimmed : List Char := withoutStorage.data.dropWhile sepChar
      let base : String := ((splitSeps trimmed).getLast?.map fun l => (⟨l⟩ : String)).getD key
      if base = "" then key ++ ".pdf" else base

/-- `getCreatorsForItem(db, itemId)` from `src/zotero/queries.ts`
(`ORDER BY ic.orderIndex ASC`, inner join on `creators`, left join on
`creatorTypes`). -/
def getCreatorsForItem (db : ZoteroDB) (itemId : Nat) : List ZoteroCreator :=
  let rows :=
    insSortBy (fun a b => decide (a.orderIndex ≤ b.orderIndex))
      (db.itemCreators.filter (fun ic => ic.itemID = itemId))
  rows.filterMap fun ic =>
    (db.creators.find? (fun c => c.creatorID = ic.creatorID)).map fun c =>
      let fieldMode := c.fieldMode.getD 0
      let singleFieldName := if fieldMode = 1 then c.lastName else none
      let d := creatorDisplayName singleFieldName c.firstName c.lastName
      { firstName := c.firstName
        lastName := c.lastName
        name := singleFieldName
        creatorType :=
          (db.creatorTypes.find? (fun ct => ct.creatorTypeID = ic.creatorTypeID)).map
            (fun ct => ct.creatorType)
        orderIndex := ic.orderIndex
        displayName := if d = "" then "Unknown Creator" else d }

/-- `getTagsForItem(db, itemId)` from `src/zotero/queries.ts`
(`ORDER BY t.name`). -/
def getTagsForItem (db : ZoteroDB) (itemId : Nat) : List String :=
  insSortBy (fun a b => !(compare a b = Ordering.gt))
    ((db.itemTags.filter (fun it => it.itemID = itemId)).filterMap fun it =>
      (db.tags.find? (fun t => t.tagID = it.tagID)).map (fun t => t.name))

/-- `getCollectionNamesForItem(db, itemId)` from `src/zotero/queries.ts`
(`ORDER BY c.collectionName`). -/
def getCollectionNamesForItem (db : ZoteroDB) (itemId : Nat) : List String :=
  insSortBy (fun a b => !(compare a b = Ordering.gt))
    ((db.collectionItems.filter (fun ci => ci.itemID = itemId)).filterMap fun ci =>
      (db.collections.find? (fun c => c.collectionID = ci.collectionID)).map
        (fun c => c.collectionName))

/-- `getAttachmentsForItem(db, itemId)` from `src/zotero/queries.ts`:
attachment rows of the item (`ORDER BY ia.itemID`), inner-joined with
`items` for the key, left-joined with the title field; derives `filename`
and `isPdf`. -/
def getAttachmentsForItem (db : ZoteroDB) (itemId : Nat) : List ZoteroAttachment :=
  let rows :=
    insSortBy (fun a b => decide (a.itemID ≤ b.itemID)) (attachmentRowsOf db itemId)
  rows.filterMap fun r =>
    (db.items.find? (fun ai => ai.itemID = r.itemID)).map fun ai =>
      let filename := deriveAttachmentFilename r.path ai.key
      let isPdf :=
        (match r.contentType with
          | some ct => containsSubL (lowerL ct.data) "pdf".data
          | none => false) ||
        endsWithL (lowerL filename.data) ".pdf".data
      { itemId := r.itemID
        key := ai.key
        title := (fieldValuesFor db r.itemID "title").head?
        contentType := r.contentType
        linkMode := r.linkMode
        path := r.path
        filename := some filename
        isPdf := isPdf }

/-- Row-to-record mapping shared by both halves of
`getNotesForItemAndAttachments`. -/
def noteRowToRec (r : NoteRow) : ZoteroNote :=
  { itemId := r.itemID
    parentItemId := r.parentItemID.getD 0
    title := r.title
    noteHtml := r.note.getD "" }

/-- `getNotesForItemAndAttachments(db, itemId, attachmentIds)` from
`src/zotero/queries.ts`: notes parented on the item, then (only when there
is at least one attachment) notes parented on any attachment; both halves
`ORDER BY itemID`. -/
def getNotesForItemAndAttachments (db : ZoteroDB) (itemId : Nat) (attachmentIds : List Nat) :
    List ZoteroNote :=
  let parentRows :=
    insSortBy (fun a b => decide (a.itemID ≤ b.itemID))
      (db.itemNotes.filter (fun n => n.parentItemID = some itemId))
  let base := parentRows.map noteRowToRec
  if attachmentIds.isEmpty then base
  else
    base ++
      (insSortBy (fun a b => decide (a.itemID ≤ b.itemID))
          (db.itemNotes.filter fun n =>
            match n.parentItemID with
            | some p => attachmentIds.contains p
            | none => false)).map
        noteRowToRec

/-- The `ORDER BY parentItemID ASC, sortIndex ASC, itemID ASC` ordering of
`getAnnotationsForAttachments`. -/
def annotRowLe (a b : AnnotationRow) : Bool :=
  if a.parentItemID.getD 0 ≠ b.parentItemID.getD 0 then
    decide (a.parentItemID.getD 0 < b.parentItemID.getD 0)
  else if a.sortIndex ≠ b.sortIndex then sqlStrLtOpt a.sortIndex b.sortIndex
  else decide (a.itemID ≤ b.itemID)

/-- `getAnnotationsForAttachments(db, attachmentIds)` from
`src/zotero/queries.ts` (empty result for an empty id list — the query is
skipped). -/
def getAnnotationsForAttachments (db : ZoteroDB) (attachmentIds : List Nat) :
    List ZoteroAnnotationRec :=
  if attachmentIds.isEmpty then []
  else
    (insSortBy annotRowLe
        (db.itemAnnotations.filter fun r =>
          match r.parentItemID with
          | some p => attachmentIds.contains p
          | none => false)).map
      fun r =>
        { itemId := r.itemID
          parentItemId := r.parentItemID.getD 0
          type := r.type
          text := r.text
          comment := r.comment
          color := r.color
          pageLabel := r.pageLabel
          sortIndex := r.sortIndex
          position := r.position }

/-- `getItemExportData(db, itemId)` from `src/zotero/queries.ts`: the full
aggregate load; throws (models as `Except.error`) when the base row (the
`items ⋈ itemTypes` join) is absent. -/
def getItemExportData (db : ZoteroDB) (itemId : Nat) : Except ExportError ZoteroItem :=
  match db.items.find? (fun i => i.itemID = itemId) with
  | none => .error (.notFound itemId)
  | some i =>
    match db.itemTypes.find? (fun t => t.itemTypeID = i.itemTypeID) with
    | none => .error (.notFound itemId)
    | some t =>
      let fields := getFieldMap db itemId
      let attachments := getAttachmentsForItem db itemId
      let attachmentIds := attachments.map (fun a => a.itemId)
      let date := lookupField fields "date"
      -- the base query LEFT JOINs `libraries` and `groups` independently on
      -- `i.libraryID`, so a group name wins even without a `libraries` row
      let libraryName :=
        match db.groups.find? (fun g => g.libraryID = i.libraryID) with
        | some g => g.name
        | none =>
          match db.libraries.find? (fun l => l.libraryID = i.libraryID) with
          | some l =>
            if l.type = "user" then "My Library" else "Library " ++ Nat.repr i.libraryID
          | none => "Library " ++ Nat.repr i.libraryID
      .ok
        { itemId := i.itemID
          key := i.key
          libraryId := i.libraryID
          libraryName := libraryName
          itemType := t.typeName
          title := (lookupField fields "title").getD "Untitled"
          creators := getCreatorsForItem db itemId
          year := extractYear date
          date := date
          publicationTitle := lookupField fields "publicationTitle"
          volume := lookupField fields "volume"
          issue := lookupField fields "issue"
          pages := lookupField fields "pages"
          publisher := lookupField fields "publisher"
          place := lookupField fields "place"
          language := lookupField fields "language"
          doi := lookupField fields "DOI"
          url := lookupField fields "url"
          tags := getTagsForItem db itemId
          collections := getCollectionNamesForItem db itemId
          abstract := lookupField fields "abstractNote"
          dateAdded := i.dateAdded
          dateModified := i.dateModified
          extra := lookupField fields "extra"
          attachments := attachments
          notes := getNotesForItemAndAttachments db itemId attachmentIds
          annotations := getAnnotationsForAttachments db attachmentIds }

/-! ### markdown.ts -/

structure MarkdownPayload where
  item : ZoteroItem
  selectedAttachments : List ZoteroAttachment
  exportedAttachmentFilenames : List String
  highlights : List ZoteroAnnotationRec
  notes : List ZoteroNote
  exportedAt : String
deriving DecidableEq

/-- The frontmatter object handed to `yaml.dump` (a `Date` is modelled by
its ISO string; `x ?? null` is modelled by `Option`). -/
structure Frontmatter where
  zotero_key : String
  item_id : Nat
  library_id : Nat
  library_name : String
  item_type : String
  title : String
  creators : List String
  year : Option String
  date : Option String
  publication_title : Option String
  volume : Option String
  issue : Option String
  pages : Option String
  publisher : Option String
  place : Option String
  language : Option String
  doi : Option String
  url : Option String
  tags : List String
  collections : List String
  abstract : Option String
  date_added : Option String
  date_modified : Option String
  extra : Option String
  attachments : List String
  exported_at : String
deriving DecidableEq

/-- The frontmatter record built at the top of `buildMarkdown`. -/
def frontmatterOf (payload : MarkdownPayload) : Frontmatter :=
  { zotero_key := payload.item.key
    item_id := payload.item.itemId
    library_id := payload.item.libraryId
    library_name := payload.item.libraryName
    item_type := payload.item.itemType
    title := payload.item.title
    creators := payload.item.creators.map (fun c => c.displayName)
    year := payload.item.year
    date := payload.item.date
    publication_title := payload.item.publicationTitle
    volume := payload.item.volume
    issue := payload.item.issue
    pages := payload.item.pages
    publisher := payload.item.publisher
    place := payload.item.place
    language := payload.item.language
    doi := payload.item.doi
    url := payload.item.url
    tags := payload.item.tags
    collections := payload.item.collections
    abstract := payload.item.abstract
    date_added := payload.item.dateAdded
    date_modified := payload.item.dateModified
    extra := payload.item.extra
    attachments := payload.exportedAttachmentFilenames
    exported_at := payload.exportedAt }

/-- The `parts` pushed for one highlight (index is 1-based in the heading). -/
def highlightBlock (n : Nat) (h : ZoteroAnnotationRec) : List String :=
  ["### Highlight " ++ Nat.repr n] ++
    (if h.pageLabel.getD "" ≠ "" then ["- Page: " ++ h.pageLabel.getD ""] else []) ++
    (if h.color.getD "" ≠ "" then ["- Color: " ++ h.color.getD ""] else []) ++
    (if jsTrimStr (h.text.getD "") ≠ "" then ["> " ++ jsTrimStr (h.text.getD "")] else []) ++
    (if jsTrimStr (h.comment.getD "") ≠ "" then ["Comment: " ++ jsTrimStr (h.comment.getD "")]
      else []) ++
    [""]

/-- The accumulated `parts` array of `renderHighlights`. -/
def renderHighlightsParts (n : Nat) : List ZoteroAnnotationRec → List String
  | [] => []
  | h :: rest => highlightBlock n h ++ renderHighlightsParts (n + 1) rest

/-- `renderHighlights(highlights)` from `src/export/markdown.ts`. -/
def renderHighlights (highlights : List ZoteroAnnotationRec) : String :=
  if highlights.isEmpty then "None\n"
  else jsTrimStr (String.intercalate "\n" (renderHighlightsParts 1 highlights)) ++ "\n"

/-- The `parts` pushed for one note. -/
def noteBlock (n : Nat) (note : ZoteroNote) : List String :=
  ["### Note " ++ Nat.repr n] ++
    (if jsTrimStr (note.title.getD "") ≠ "" then ["Title: " ++ jsTrimStr (note.title.getD ""), ""]
      else []) ++
    [let md := jsTrimStr (note.noteMarkdown.getD "")
     if md ≠ "" then md else "Empty note content."] ++
    [""]

/-- The accumulated `parts` array of `renderNotes`. -/
def renderNotesParts (n : Nat) : List ZoteroNote → List String
  | [] => []
  | note :: rest => noteBlock n note ++ renderNotesParts (n + 1) rest

/-- `renderNotes(notes)` from `src/export/markdown.ts`. -/
def renderNotes (notes : List ZoteroNote) : String :=
  if notes.isEmpty then "None\n"
  else jsTrimStr (String.intercalate "\n" (renderNotesParts 1 notes)) ++ "\n"

/-- `buildMarkdown(payload)` from `src/export/markdown.ts`; the external
`yaml.dump` collaborator is the abstract parameter `yamlDump`. -/
def buildMarkdown (yamlDump : Frontmatter → String) (payload : MarkdownPayload) : String :=
  let title := if payload.item.title = "" then "Untitled" else payload.item.title
  "---\n" ++ yamlDump (frontmatterOf payload) ++ "---\n\n# " ++ title ++
    "\n\n## Highlights\n\n" ++ renderHighlights payload.highlights ++ "\n## Notes\n\n" ++
    renderNotes payload.notes

/-! ### exporter.ts -/

inductive ConflictDecision where
  | overwrite
  | skip
  | cancel
deriving DecidableEq

structure ExportResult where
  exported : Nat
  skipped : Nat
  failed : Nat
  cancelled : Bool
  warnings : List String
deriving DecidableEq

/-- The `ExportOptions` bag plus the external collaborators used inside
`exportItems`: the conflict / attachment-selection decision callbacks, the
Turndown HTML→Markdown transform, `yaml.dump`, the NFKD normalizer, and a
fault oracle deciding which filesystem syscalls throw. -/
structure ExportEnv where
  outputRoot : String
  layoutMode : LayoutMode
  storagePath : String
  resolveConflict : String → ZoteroItem → ConflictDecision
  selectPdfAttachments : ZoteroItem → List ZoteroAttachment → List ZoteroAttachment
  now : String
  htmlToMarkdown : String → String
  yamlDump : Frontmatter → String
  normalize : String → String
  faults : String → String → Bool

/-! #### Filesystem syscalls (`node:fs/promises`), parameterised by the
fault oracle -/

/-- `fs.mkdir(p, { recursive: true })`. -/
def fsMkdirRec (flt : String → String → Bool) (fs : FS) (p : String) : Except ExportError FS :=
  if flt "mkdir" p then .error (.ioFault "mkdir" p)
  else .ok { fs with dirs := if fs.dirs.contains p then fs.dirs else p :: fs.dirs }

/-- Path `q` equals `dir` or lies under it. -/
def underDir (dir q : String) : Bool :=
  q = dir || startsWithL q.data (dir ++ "/").data

/-- `fs.rm(p, { recursive: true, force: true })`. -/
def fsRmRec (flt : String → String → Bool) (fs : FS) (p : String) : Except ExportError FS :=
  if flt "rm" p then .error (.ioFault "rm" p)
  else
    .ok
      { files := fs.files.filter (fun q => !underDir p q)
        dirs := fs.dirs.filter (fun q => !underDir p q) }

/-- `fs.rm(p, { force: true })`. -/
def fsRmFile (flt : String → String → Bool) (fs : FS) (p : String) : Except ExportError FS :=
  if flt "rm" p then .error (.ioFault "rm" p)
  else .ok { fs with files := fs.files.filter (fun q => q ≠ p) }

/-- `fs.copyFile(src, dst)` (contents are not tracked by the model). -/
def fsCopyFile (flt : String → String → Bool) (fs : FS) (_src dst : String) :
    Except ExportError FS :=
  if flt "copyFile" dst then .error (.ioFault "copyFile" dst)
  else .ok { fs with files := if fs.files.contains dst then fs.files else dst :: fs.files }

/-- `fs.writeFile(p, content, 'utf8')` (the content is accepted but not
tracked by the path-set model). -/
def fsWriteFile (flt : String → String → Bool) (fs : FS) (p : String) (_content : String) :
    Except ExportError FS :=
  if flt "writeFile" p then .error (.ioFault "writeFile" p)
  else .ok { fs with files := if fs.files.contains p then fs.files else p :: fs.files }

/-- `fs.readdir(dir, { withFileTypes: true })` filtered to plain files:
the names of the direct file children of `dir`. -/
def fsReaddirFileNames (flt : String → String → Bool) (fs : FS) (dir : String) :
    Except ExportError (List String) :=
  if flt "readdir" dir then .error (.ioFault "readdir" dir)
  else
    .ok
      (fs.files.filterMap fun q =>
        if startsWithL q.data (dir ++ "/").data then
          let rest := q.data.drop (dir.length + 1)
          if rest.contains '/' then none else some ⟨rest⟩
        else none)

/-- The `^[A-Za-z]:\\` Windows drive-letter test in
`resolveAttachmentSourcePath`. -/
def isWindowsDrivePath (p : String) : Bool :=
  match p.data with
  | c :: d :: e :: _ => c.isAlpha && d = ':' && e = '\\'
  | _ => false

/-- `resolveAttachmentSourcePath(storagePath, attachment)` from
`src/export/exporter.ts`.  `path.isAbsolute` is modelled with its POSIX
meaning (leading `/`); the Windows drive-letter shape has its own regex
test in the source, mirrored below. -/
def resolveAttachmentSourcePath (storagePath : String) (a : ZoteroAttachment) : Option String :=
  match a.path with
  | none => none
  | some ap =>
    if ap = "" then none
    else if startsWithL ap.data "storage:".data then
      let relativePart : String := ⟨(ap.data.drop 8).dropWhile sepChar⟩
      let filename :=
        if relativePart ≠ "" then relativePart
        else if a.filename.getD "" ≠ "" then a.filename.getD ""
        else a.key ++ ".pdf"
      some (pathJoin (pathJoin storagePath a.key) filename)
    else if startsWithL ap.data "/".data then some ap
    else if isWindowsDrivePath ap then some ap
    else none

/-- `getTargetPdfPath(markdownPath, layoutMode, flatPrefix, sourceFilename)`
from `src/export/exporter.ts`. -/
def getTargetPdfPath (normalize : String → String) (markdownPath : String)
    (layoutMode : LayoutMode) (flatPfx : Option String) (sourceFilename : String) : String :=
  let sanitized := sanitizeFilename normalize sourceFilename
  let directory := pathDirname markdownPath
  match layoutMode with
  | .flat => pathJoin directory ((flatPfx.getD "") ++ sanitized)
  | _ => pathJoin directory sanitized

/-- The flat-layout sweep loop at the end of `removeExistingTarget`:
delete every direct file child of `outputRoot` whose name starts with the
flat prefix. -/
def rmFlatLoop (flt : String → String → Bool) (outputRoot fp : String) :
    List String → FS → Except ExportError FS
  | [], fs => .ok fs
  | name :: rest, fs =>
    if startsWithL name.data fp.data then
      match fsRmFile flt fs (pathJoin outputRoot name) with
      | .error e => .error e
      | .ok fs2 => rmFlatLoop flt outputRoot fp rest fs2
    else rmFlatLoop flt outputRoot fp rest fs

/-- `removeExistingTarget(outputRoot, markdownPath, itemFolder, flatPrefix)`
from `src/export/exporter.ts`. -/
def removeExistingTarget (flt : String → String → Bool) (outputRoot markdownPath : String)
    (itemFolder flatPfx : Option String) (fs : FS) : Except ExportError FS :=
  match itemFolder with
  | some folder => if pathExistsB fs folder then fsRmRec flt fs folder else .ok fs
  | none =>
    match (if pathExistsB fs markdownPath then fsRmFile flt fs markdownPath else .ok fs) with
    | .error e => .error e
    | .ok fs1 =>
      if flatPfx.getD "" = "" then .ok fs1
      else if !pathExistsB fs1 outputRoot then .ok fs1
      else
        match fsReaddirFileNames flt fs1 outputRoot with
        | .error e => .error e
        | .ok names => rmFlatLoop flt outputRoot (flatPfx.getD "") names fs1

/-- `convertNotesToMarkdown(notes)` from `src/export/exporter.ts`; the
Turndown collaborator enters as `htmlToMarkdown`. -/
def convertNotesToMarkdown (htmlToMarkdown : String → String) (notes : List ZoteroNote) :
    List ZoteroNote :=
  notes.map fun note =>
    let html := note.noteHtml
    let markdown := if jsTrimStr html ≠ "" then htmlToMarkdown html else ""
    { note with noteMarkdown := some markdown }

/-- Output paths of one item (lines 141–142 of `exporter.ts`). -/
def itemOutputPathsOf (env : ExportEnv) (item : ZoteroItem) : ItemOutputPaths :=
  resolveItemOutputPaths env.normalize env.outputRoot env.layoutMode
    (buildItemSlug env.normalize item.key item.title) item.year

/-- `existingTarget` of one item (line 143 of `exporter.ts`:
`outputPaths.itemFolder ?? outputPaths.markdownPath`). -/
def conflictTarget (env : ExportEnv) (item : ZoteroItem) : String :=
  (itemOutputPathsOf env item).itemFolder.getD (itemOutputPathsOf env item).markdownPath

/-- How one iteration of the `for` loop of `exportItems` ends normally:
fall-through (`exported += 1`), `continue` after a skip, or `break` after a
cancel. -/
inductive ItemOutcome where
  | completed
  | skippedItem
  | cancelledBatch
deriving DecidableEq

/-- Result of the per-item `try` body: either a normal outcome or a raised
exception, in both cases with the filesystem and the warnings list as they
stand at that point. -/
abbrev ItemResult :=
  Except (ExportError × FS × List String) (ItemOutcome × FS × List String)

/-- The `for (const attachment of selectedPdfs)` copy loop of
`exportItems`: unsupported path shapes and missing source files append a
warning and continue; copy faults raise. -/
def copyPdfLoop (env : ExportEnv) (item : ZoteroItem) (outputPaths : ItemOutputPaths) :
    List ZoteroAttachment → FS → List String → List String →
    Except (ExportError × FS × List String) (List String × FS × List String)
  | [], fs, ws, copied => .ok (copied, fs, ws)
  | a :: rest, fs, ws, copied =>
    match resolveAttachmentSourcePath env.storagePath a with
    | none =>
      copyPdfLoop env item outputPaths rest fs
        (ws ++
          ["Item " ++ item.key ++ ": unsupported attachment path format for " ++
            (a.filename.getD a.key)])
        copied
    | some sourcePath =>
      if !pathExistsB fs sourcePath then
        copyPdfLoop env item outputPaths rest fs
          (ws ++ ["Item " ++ item.key ++ ": attachment file not found at " ++ sourcePath]) copied
      else
        let desired :=
          getTargetPdfPath env.normalize outputPaths.markdownPath env.layoutMode
            outputPaths.flatPfx (a.filename.getD (a.key ++ ".pdf"))
        let target := makeUniqueFilePath fs desired
        match fsCopyFile env.faults fs sourcePath target with
        | .error e => .error (e, fs, ws)
        | .ok fs2 => copyPdfLoop env item outputPaths rest fs2 ws (copied ++ [pathBasename target])

/-- The per-item `try` body after the conflict check: make the markdown
directory, select PDFs, copy them, filter highlights/notes, render and
write the document. -/
def processItemRest (env : ExportEnv) (fs : FS) (ws : List String) (item : ZoteroItem) :
    ItemResult :=
  let outputPaths := itemOutputPathsOf env item
  match fsMkdirRec env.faults fs (pathDirname outputPaths.markdownPath) with
  | .error e => .error (e, fs, ws)
  | .ok fs1 =>
    let pdfAttachments := item.attachments.filter (fun a => a.isPdf)
    let selectedPdfs :=
      if pdfAttachments.length > 1 then env.selectPdfAttachments item pdfAttachments
      else pdfAttachments
    let selectedPdfIds := selectedPdfs.map (fun a => a.itemId)
    match copyPdfLoop env item outputPaths selectedPdfs fs1 ws [] with
    | .error efw => .error efw
    | .ok (copied, fs2, ws2) =>
      let filteredHighlights :=
        item.annotations.filter (fun an => selectedPdfIds.contains an.parentItemId)
      let filteredNotes :=
        item.notes.filter fun n =>
          n.parentItemId = item.itemId || selectedPdfIds.contains n.parentItemId
      let noteMarkdown := convertNotesToMarkdown env.htmlToMarkdown filteredNotes
      let markdown :=
        buildMarkdown env.yamlDump
          { item := item
            selectedAttachments := selectedPdfs
            exportedAttachmentFilenames := copied
            highlights := filteredHighlights
            notes := noteMarkdown
            exportedAt := env.now }
      match fsWriteFile env.faults fs2 outputPaths.markdownPath markdown with
      | .error e => .error (e, fs2, ws2)
      | .ok fs3 => .ok (.completed, fs3, ws2)

/-- The whole per-item `try` body of `exportItems` (lines 139–229 of
`exporter.ts`). -/
def processItem (env : ExportEnv) (db : ZoteroDB) (fs : FS) (ws : List String)
    (summary : ZoteroItemSummary) : ItemResult :=
  match getItemExportData db summary.itemId with
  | .error e => .error (e, fs, ws)
  | .ok item =>
    if pathExistsB fs (conflictTarget env item) then
      match env.resolveConflict (conflictTarget env item) item with
      | .cancel => .ok (.cancelledBatch, fs, ws)
      | .skip => .ok (.skippedItem, fs, ws)
      | .overwrite =>
        match
          removeExistingTarget env.faults env.outputRoot (itemOutputPathsOf env item).markdownPath
            (itemOutputPathsOf env item).itemFolder (itemOutputPathsOf env item).flatPfx fs
        with
        | .error e => .error (e, fs, ws)
        | .ok fs2 => processItemRest env fs2 ws item
    else processItemRest env fs ws item

/-- The `for (const summary of itemSummaries)` loop of `exportItems` with
its `try`/`catch`: a raised exception increments `failed` and the loop
continues; a cancel decision breaks out with `cancelled := true`. -/
def exportLoop (env : ExportEnv) (db : ZoteroDB) :
    List ZoteroItemSummary → FS → ExportResult → ExportResult × FS
  | [], fs, acc => (acc, fs)
  | s :: rest, fs, acc =>
    match processItem env db fs acc.warnings s with
    | .ok (.cancelledBatch, fs2, ws2) => ({ acc with cancelled := true, warnings := ws2 }, fs2)
    | .ok (.skippedItem, fs2, ws2) =>
      exportLoop env db rest fs2 { acc with skipped := acc.skipped + 1, warnings := ws2 }
    | .ok (.completed, fs2, ws2) =>
      exportLoop env db rest fs2 { acc with exported := acc.exported + 1, warnings := ws2 }
    | .error (_, fs2, ws2) =>
      exportLoop env db rest fs2 { acc with failed := acc.failed + 1, warnings := ws2 }

/-- `exportItems(db, itemSummaries, options)` from `src/export/exporter.ts`.
Only the initial `fs.mkdir(outputRoot)` sits outside the per-item
`try`/`catch`, so it is the only operation whose failure rejects the whole
call. -/
def exportItems (env : ExportEnv) (db : ZoteroDB) (fs : FS)
    (itemSummaries : List ZoteroItemSummary) : Except ExportError (ExportResult × FS) :=
  match fsMkdirRec env.faults fs env.outputRoot with
  | .error e => .error e
  | .ok fs1 =>
    .ok
      (exportLoop env db itemSummaries fs1
        { exported := 0, skipped := 0, failed := 0, cancelled := false, warnings := [] })

/-- `buildConflictTargetLabel(item, targetPath)` from
`src/export/exporter.ts`. -/
def buildConflictTargetLabel (item : ZoteroItem) (targetPath : String) : String :=
  (if item.title = "" then item.key else item.title) ++ " (" ++ targetPath ++ ")"

/-! ### Concrete fixtures used by the witnesses -/

/-- A small store mirroring the repository's own vitest fixture: one
journal article `ITEM1KEY` with one PDF attachment and two notes (one on
the item, one on the attachment). -/
def witDB : ZoteroDB :=
  { items :=
      [{ itemID := 1, itemTypeID := 1, libraryID := 1, key := "ITEM1KEY",
         dateAdded := some "2024-01-01", dateModified := some "2024-01-02" },
       { itemID := 11, itemTypeID := 2, libraryID := 1, key := "ATTACH1",
         dateAdded := some "2024-01-01", dateModified := some "2024-01-02" }]
    itemTypes := [⟨1, "journalArticle"⟩, ⟨2, "attachment"⟩, ⟨3, "note"⟩, ⟨4, "annotation"⟩]
    libraries := [⟨1, "user"⟩]
    fields := [⟨1, "title"⟩, ⟨2, "date"⟩, ⟨3, "DOI"⟩]
    itemDataValues := [⟨1, "Distributed Cognition"⟩, ⟨2, "1995"⟩, ⟨3, "10.1234/demo"⟩]
    itemData := [⟨1, 1, 1⟩, ⟨1, 2, 2⟩, ⟨1, 3, 3⟩]
    creators := [{ creatorID := 1, firstName := some "Edwin", lastName := some "Hutchins",
                   fieldMode := some 0 }]
    creatorTypes := [⟨1, "author"⟩]
    itemCreators := [{ itemID := 1, creatorID := 1, creatorTypeID := 1, orderIndex := 0 }]
    tags := [⟨1, "cognition"⟩]
    itemTags := [⟨1, 1⟩]
    itemAttachments := [{ itemID := 11, parentItemID := some 1,
                          contentType := some "application/pdf", linkMode := some 0,
                          path := some "storage:paper.pdf" }]
    itemNotes := [{ itemID := 21, parentItemID := some 1, title := some "Item note",
                    note := some "<p>hi</p>" },
                  { itemID := 22, parentItemID := some 11, title := some "Att note",
                    note := some "<p>ho</p>" }] }

/-- The aggregate `getItemExportData witDB 1` loads (checked by `rfl` in the
witnesses). -/
def witItem : ZoteroItem :=
  { itemId := 1, key := "ITEM1KEY", libraryId := 1, libraryName := "My Library",
    itemType := "journalArticle", title := "Distributed Cognition",
    creators := [{ firstName := some "Edwin", lastName := some "Hutchins", name := none,
                   creatorType := some "author", orderIndex := 0,
                   displayName := "Hutchins, Edwin" }],
    year := some "1995", date := some "1995", doi := some "10.1234/demo",
    tags := ["cognition"], collections := [],
    dateAdded := some "2024-01-01", dateModified := some "2024-01-02",
    attachments := [{ itemId := 11, key := "ATTACH1", title := none,
                      contentType := some "application/pdf", linkMode := some 0,
                      path := some "storage:paper.pdf", filename := some "paper.pdf",
                      isPdf := true }],
    notes := [{ itemId := 21, parentItemId := 1, title := some "Item note",
                noteHtml := "<p>hi</p>" },
              { itemId := 22, parentItemId := 11, title := some "Att note",
                noteHtml := "<p>ho</p>" }],
    annotations := [] }

/-- Baseline export environment for the witnesses. -/
def witEnvBase : ExportEnv :=
  { outputRoot := "/out", layoutMode := .itemFolder, storagePath := "/stor",
    resolveConflict := fun _ _ => .overwrite, selectPdfAttachments := fun _ l => l,
    now := "2026-01-01T00:00:00.000Z", htmlToMarkdown := id,
    yamlDump := fun _ => "yaml\n", normalize := id, faults := fun _ _ => false }

/-- Environment whose conflict collaborator always cancels. -/
def witEnvCancel : ExportEnv :=
  { witEnvBase with resolveConflict := fun _ _ => .cancel }

/-- Environment whose conflict collaborator always skips. -/
def witEnvSkip : ExportEnv :=
  { witEnvBase with resolveConflict := fun _ _ => .skip }

/-- A destination tree in which `witItem`'s item-folder target already
exists. -/
def witFS : FS :=
  ⟨["/stor/ATTACH1/paper.pdf"], ["/out/ITEM1KEY-Distributed-Cognition"]⟩

/-- Fresh run accumulator. -/
def witRes0 : ExportResult :=
  { exported := 0, skipped := 0, failed := 0, cancelled := false, warnings := [] }

/-- The summary record driving the witnesses (only `itemId` is read by the
loop). -/
def witSum : ZoteroItemSummary :=
  { itemId := 1, key := "ITEM1KEY", libraryId := 1, libraryName := "My Library",
    itemType := "journalArticle", title := "Distributed Cognition", creatorsText := "",
    pdfCount := 1, hasPdf := true, noteCount := 2 }

/-- A summary whose base item row does not exist in `witDB`. -/
def witSumMissing : ZoteroItemSummary :=
  { witSum with itemId := 99 }

/-! ### C1 -/

/-- C1: partial-failure isolation.  (1) Whenever the per-item body of
`exportItems` raises (`processItem` returns `.error`), the loop increments
only the `failed` counter for that item and continues with the remaining
items — stated as an equation of `exportLoop`, so in particular no
exception escapes the loop, whose result type is a plain `ExportResult`.
(2) An aggregate-load failure for a missing base item row is such an
exception. -/
theorem c1_partial_failure_isolation :
    (∀ (env : ExportEnv) (db : ZoteroDB) (fs : FS) (s : ZoteroItemSummary)
        (rest : List ZoteroItemSummary) (acc : ExportResult) (e : ExportError) (fs2 : FS)
        (ws2 : List String),
        processItem env db fs acc.warnings s = .error (e, fs2, ws2) →
        exportLoop env db (s :: rest) fs acc =
          exportLoop env db rest fs2 { acc with failed := acc.failed + 1, warnings := ws2 }) ∧
    ∀ (env : ExportEnv) (db : ZoteroDB) (fs : FS) (ws : List String) (s : ZoteroItemSummary),
      db.items.find? (fun i => i.itemID = s.itemId) = none →
      processItem env db fs ws s = .error (.notFound s.itemId, fs, ws) := by
  constructor
  · intro env db fs s rest acc e fs2 ws2 h
    simp only [exportLoop, h]
  · intro env db fs ws s h
    simp only [processItem, getItemExportData, h]

/-- Witness for C1: in `witDB` there is no item 99, so processing
`witSumMissing` raises and the loop turns that into `failed + 1`. -/
theorem c1_partial_failure_isolation_witness :
    exportLoop witEnvBase witDB [witSumMissing] witFS witRes0 =
      exportLoop witEnvBase witDB [] witFS
        { witRes0 with failed := witRes0.failed + 1, warnings := witRes0.warnings } := by
  have h2 :=
    c1_partial_failure_isolation.2 witEnvBase witDB witFS witRes0.warnings witSumMissing rfl
  exact c1_partial_failure_isolation.1 witEnvBase witDB witFS witSumMissing [] witRes0
    (.notFound witSumMissing.itemId) witFS witRes0.warnings h2

/-! ### C2 -/

/-- C2: when the conflict collaborator answers `cancel` for an item whose
target exists, the batch stops at once: the result is the accumulator with
`cancelled := true`, no counter is incremented for the item, and the
remaining summaries do not enter the loop (the right-hand side does not
mention `rest`). -/
theorem c2_cancel_stops_batch (env : ExportEnv) (db : ZoteroDB) (fs : FS)
    (s : ZoteroItemSummary) (rest : List ZoteroItemSummary) (acc : ExportResult)
    (item : ZoteroItem) (hload : getItemExportData db s.itemId = .ok item)
    (hex : pathExistsB fs (conflictTarget env item) = true)
    (hdec : env.resolveConflict (conflictTarget env item) item = .cancel) :
    exportLoop env db (s :: rest) fs acc = ({ acc with cancelled := true }, fs) := by
  simp only [exportLoop, processItem, hload, hex, hdec, if_true]

/-- Witness for C2 on the concrete fixture (target folder exists, the
collaborator cancels, a second summary is pending and never processed). -/
theorem c2_cancel_stops_batch_witness :
    exportLoop witEnvCancel witDB [witSum, witSum] witFS witRes0 =
      ({ witRes0 with cancelled := true }, witFS) :=
  c2_cancel_stops_batch witEnvCancel witDB witFS witSum [witSum] witRes0 witItem rfl rfl rfl

/-! ### C3 -/

/-- C3: when the conflict collaborator answers `skip` for an item whose
target exists, the loop performs no filesystem mutation for the item (the
same `fs` flows on, so the existing target and its contents are unchanged),
increments `skipped` by exactly 1, and leaves `exported` (and every other
counter) unchanged. -/
theorem c3_skip_leaves_target_untouched (env : ExportEnv) (db : ZoteroDB) (fs : FS)
    (s : ZoteroItemSummary) (rest : List ZoteroItemSummary) (acc : ExportResult)
    (item : ZoteroItem) (hload : getItemExportData db s.itemId = .ok item)
    (hex : pathExistsB fs (conflictTarget env item) = true)
    (hdec : env.resolveConflict (conflictTarget env item) item = .skip) :
    exportLoop env db (s :: rest) fs acc =
      exportLoop env db rest fs { acc with skipped := acc.skipped + 1 } := by
  simp only [exportLoop, processItem, hload, hex, hdec, if_true]

/-- Witness for C3 on the concrete fixture: re-exporting into the existing
`item-folder` target with decision `skip` yields `skipped = 1`,
`exported = 0`, and the filesystem exactly as before. -/
theorem c3_skip_leaves_target_untouched_witness :
    exportLoop witEnvSkip witDB [witSum] witFS witRes0 =
      ({ witRes0 with skipped := witRes0.skipped + 1 }, witFS) :=
  (c3_skip_leaves_target_untouched witEnvSkip witDB witFS witSum [] witRes0 witItem rfl rfl
    rfl).trans rfl

/-! ### C9 -/

/-- `sub` occurs as a substring of `s`. -/
def strContains (s sub : String) : Prop :=
  ∃ pre post : String, s = pre ++ sub ++ post

/-- C9: rendering an item with an empty filtered highlight list and an
empty filtered note list produces a document containing the literal
placeholder sections `"## Highlights\n\nNone"` and `"## Notes\n\nNone"`,
for every yaml collaborator and payload. -/
theorem c9_empty_sections_render_none (yamlDump : Frontmatter → String)
    (payload : MarkdownPayload) (h1 : payload.highlights = []) (h2 : payload.notes = []) :
    strContains (buildMarkdown yamlDump payload) "## Highlights\n\nNone" ∧
    strContains (buildMarkdown yamlDump payload) "## Notes\n\nNone" := by
  have hb : buildMarkdown yamlDump payload =
      "---\n" ++ yamlDump (frontmatterOf payload) ++ "---\n\n# " ++
        (if payload.item.title = "" then "Untitled" else payload.item.title) ++
        "\n\n## Highlights\n\nNone\n\n## Notes\n\nNone\n" := by
    simp only [buildMarkdown, h1, h2, renderHighlights, renderNotes, List.isEmpty_nil, if_true]
    simp only [String.append_assoc]
    exact congrArg (fun z => "---\n" ++ (yamlDump (frontmatterOf payload) ++ ("---\n\n# " ++
      ((if payload.item.title = "" then "Untitled" else payload.item.title) ++ z)))) (by decide)
  constructor
  · refine ⟨"---\n" ++ yamlDump (frontmatterOf payload) ++ "---\n\n# " ++
      (if payload.item.title = "" then "Untitled" else payload.item.title) ++ "\n\n",
      "\n\n## Notes\n\nNone\n", ?_⟩
    rw [hb]
    simp only [String.append_assoc]
    exact congrArg (fun z => "---\n" ++ (yamlDump (frontmatterOf payload) ++ ("---\n\n# " ++
      ((if payload.item.title = "" then "Untitled" else payload.item.title) ++ z)))) (by decide)
  · refine ⟨"---\n" ++ yamlDump (frontmatterOf payload) ++ "---\n\n# " ++
      (if payload.item.title = "" then "Untitled" else payload.item.title) ++
      "\n\n## Highlights\n\nNone\n\n", "\n", ?_⟩
    rw [hb]
    simp only [String.append_assoc]
    exact congrArg (fun z => "---\n" ++ (yamlDump (frontmatterOf payload) ++ ("---\n\n# " ++
      ((if payload.item.title = "" then "Untitled" else payload.item.title) ++ z)))) (by decide)

/-- Concrete payload for the C9 witness. -/
def witPayloadEmpty : MarkdownPayload :=
  { item := witItem, selectedAttachments := [], exportedAttachmentFilenames := [],
    highlights := [], notes := [], exportedAt := "2026-01-01T00:00:00.000Z" }

/-- Witness for C9 at a concrete payload. -/
theorem c9_empty_sections_render_none_witness :
    strContains (buildMarkdown (fun _ => "yaml\n") witPayloadEmpty) "## Highlights\n\nNone" ∧
    strContains (buildMarkdown (fun _ => "yaml\n") witPayloadEmpty) "## Notes\n\nNone" :=
  c9_empty_sections_render_none (fun _ => "yaml\n") witPayloadEmpty rfl rfl

/-! ### C6 -/

/-- A non-matching head makes `isPrefixOf` false. -/
theorem sprefix_cons_false {a b : Char} (ps l : List Char) (h : (a == b) = false) :
    (a :: ps).isPrefixOf (b :: l) = false := by
  simp [List.isPrefixOf, h]

/-- C6: source-path resolution for a selected attachment.
`storage:`-prefixed paths resolve to `<storageRoot>/<attachmentKey>/<relativeFilename>`;
absolute POSIX paths and Windows drive-letter paths pass through unchanged;
an absent path or any other shape is unsupported (`none`), and the copy
loop then appends a warning for that attachment, leaves the filesystem
untouched, and continues with the remaining attachments instead of
failing the item. -/
theorem c6_attachment_source_resolution :
    (∀ (storagePath : String) (a : ZoteroAttachment) (p : String),
        a.path = some p → startsWithL p.data "storage:".data = true →
        (⟨(p.data.drop 8).dropWhile sepChar⟩ : String) ≠ "" →
        resolveAttachmentSourcePath storagePath a =
          some (pathJoin (pathJoin storagePath a.key)
            (⟨(p.data.drop 8).dropWhile sepChar⟩ : String))) ∧
    (∀ (storagePath : String) (a : ZoteroAttachment) (p : String),
        a.path = some p → startsWithL p.data "/".data = true →
        resolveAttachmentSourcePath storagePath a = some p) ∧
    (∀ (storagePath : String) (a : ZoteroAttachment) (p : String),
        a.path = some p → isWindowsDrivePath p = true →
        resolveAttachmentSourcePath storagePath a = some p) ∧
    (∀ (storagePath : String) (a : ZoteroAttachment),
        a.path = none → resolveAttachmentSourcePath storagePath a = none) ∧
    (∀ (storagePath : String) (a : ZoteroAttachment) (p : String),
        a.path = some p → startsWithL p.data "storage:".data = false →
        startsWithL p.data "/".data = false → isWindowsDrivePath p = false →
        resolveAttachmentSourcePath storagePath a = none) ∧
    (∀ (env : ExportEnv) (item : ZoteroItem) (outputPaths : ItemOutputPaths)
        (a : ZoteroAttachment) (rest : List ZoteroAttachment) (fs : FS) (ws copied : List String),
        resolveAttachmentSourcePath env.storagePath a = none →
        copyPdfLoop env item outputPaths (a :: rest) fs ws copied =
          copyPdfLoop env item outputPaths rest fs
            (ws ++ ["Item " ++ item.key ++ ": unsupported attachment path format for " ++
              (a.filename.getD a.key)]) copied) := by
  refine ⟨?_, ?_, ?_, ?_, ?_, ?_⟩
  · intro storagePath a p hp hpfx hrel
    have hne : p ≠ "" := by
      intro he
      subst he
      simp [startsWithL, List.isPrefixOf] at hpfx
    simp [resolveAttachmentSourcePath, hp, hne, hpfx, hrel]
  · intro storagePath a p hp habs
    obtain ⟨t, hpd⟩ : ∃ t, p.data = '/' :: t := by
      cases hq : p.data with
      | nil => rw [hq] at habs; simp [startsWithL, List.isPrefixOf] at habs
      | cons c t =>
        rw [hq] at habs
        simp [startsWithL, List.isPrefixOf] at habs
        exact ⟨t, by rw [habs]⟩
    have hne : p ≠ "" := by
      intro he; rw [he] at hpd; simp at hpd
    have hnstor : startsWithL p.data "storage:".data = false := by
      rw [hpd, startsWithL]
      exact sprefix_cons_false _ _ (by decide)
    have habs' : startsWithL p.data "/".data = true := habs
    simp [resolveAttachmentSourcePath, hp, hne, hnstor, habs']
  · intro storagePath a p hp hw
    rw [isWindowsDrivePath] at hw
    cases hpd : p.data with
    | nil => rw [hpd] at hw; simp at hw
    | cons c rest =>
      cases rest with
      | nil => rw [hpd] at hw; simp at hw
      | cons d rest2 =>
        cases rest2 with
        | nil => rw [hpd] at hw; simp at hw
        | cons e t =>
          rw [hpd] at hw
          simp only [Bool.and_eq_true, decide_eq_true_eq] at hw
          obtain ⟨⟨halpha, hd⟩, he⟩ := hw
          subst hd he
          have hne : p ≠ "" := by intro h0; rw [h0] at hpd; simp at hpd
          have hcslash : ('/' == c) = false := by
            cases hcc : ('/' == c) with
            | false => rfl
            | true =>
              have hc : '/' = c := eq_of_beq hcc
              exact absurd halpha (by rw [← hc]; decide)
          have hnstor : startsWithL p.data "storage:".data = false := by
            rw [hpd, startsWithL, List.isPrefixOf]
            have h2 : List.isPrefixOf ['t', 'o', 'r', 'a', 'g', 'e', ':'] (':' :: '\\' :: t) =
                false := sprefix_cons_false _ _ (by decide)
            rw [h2]
            simp
          have hnslash : startsWithL p.data "/".data = false := by
            rw [hpd, startsWithL]
            exact sprefix_cons_false _ _ hcslash
          have hwin : isWindowsDrivePath p = true := by
            rw [isWindowsDrivePath, hpd]
            simp [halpha]
          simp [resolveAttachmentSourcePath, hp, hne, hnstor, hnslash, hwin]
  · intro storagePath a hp
    simp [resolveAttachmentSourcePath, hp]
  · intro storagePath a p hp h1 h2 h3
    by_cases hne : p = ""
    · subst hne; simp [resolveAttachmentSourcePath, hp]
    · simp [resolveAttachmentSourcePath, hp, hne, h1, h2, h3]
  · intro env item outputPaths a rest fs ws copied h
    simp only [copyPdfLoop, h]

/-- Attachment fixtures for the C6 witness. -/
def witAttOf (p : Option String) : ZoteroAttachment :=
  { itemId := 11, key := "ATTACH1", contentType := some "application/pdf",
    path := p, filename := some "paper.pdf", isPdf := true }

/-- Witness for C6: each resolution shape at a concrete attachment, plus
the copy-loop behaviour on an unsupported relative path. -/
theorem c6_attachment_source_resolution_witness :
    resolveAttachmentSourcePath "/stor" (witAttOf (some "storage:paper.pdf")) =
      some "/stor/ATTACH1/paper.pdf" ∧
    resolveAttachmentSourcePath "/stor" (witAttOf (some "/abs/doc.pdf")) =
      some "/abs/doc.pdf" ∧
    resolveAttachmentSourcePath "/stor" (witAttOf (some "C:\\docs\\doc.pdf")) =
      some "C:\\docs\\doc.pdf" ∧
    resolveAttachmentSourcePath "/stor" (witAttOf none) = none ∧
    resolveAttachmentSourcePath "/stor" (witAttOf (some "relative/doc.pdf")) = none ∧
    copyPdfLoop witEnvBase witItem (itemOutputPathsOf witEnvBase witItem)
        [witAttOf (some "relative/doc.pdf")] witFS [] [] =
      .ok ([], witFS, ["Item ITEM1KEY: unsupported attachment path format for paper.pdf"]) := by
  refine ⟨?_, ?_, ?_, ?_, ?_, ?_⟩
  · exact (c6_attachment_source_resolution.1 "/stor" (witAttOf (some "storage:paper.pdf"))
      "storage:paper.pdf" rfl rfl (by decide)).trans (by decide)
  · exact c6_attachment_source_resolution.2.1 "/stor" (witAttOf (some "/abs/doc.pdf"))
      "/abs/doc.pdf" rfl rfl
  · exact c6_attachment_source_resolution.2.2.1 "/stor" (witAttOf (some "C:\\docs\\doc.pdf"))
      "C:\\docs\\doc.pdf" rfl (by decide)
  · exact c6_attachment_source_resolution.2.2.2.1 "/stor" (witAttOf none) rfl
  · exact c6_attachment_source_resolution.2.2.2.2.1 "/stor"
      (witAttOf (some "relative/doc.pdf")) "relative/doc.pdf" rfl (by decide) (by decide)
      (by decide)
  · exact (c6_attachment_source_resolution.2.2.2.2.2 witEnvBase witItem
      (itemOutputPathsOf witEnvBase witItem) (witAttOf (some "relative/doc.pdf")) [] witFS []
      [] (c6_attachment_source_resolution.2.2.2.2.1 witEnvBase.storagePath
        (witAttOf (some "relative/doc.pdf")) "relative/doc.pdf" rfl (by decide) (by decide)
        (by decide))).trans rfl

/-- The sanitized segment never exceeds `MAX_SLUG_LENGTH` characters. -/
theorem sanitizeSegment_length_le (normalize : String → String) (input : String) :
    (sanitizeSegment normalize input).length ≤ 80 := by
  show ((sanitizePreTrunc normalize input).take MAX_SLUG_LENGTH).length ≤ 80
  rw [List.length_take]
  exact Nat.min_le_left _ _

/-! ### C4 -/


theorem mem_collapseRuns {isRun : Char → Bool} {out : Char} {b : Bool} {l : List Char} {c : Char}
    (h : c ∈ collapseRuns isRun out b l) : c = out ∨ (c ∈ l ∧ isRun c = false) := by
  induction l generalizing b with
  | nil => simp [collapseRuns] at h
  | cons x xs ih =>
    rw [collapseRuns] at h
    by_cases hx : isRun x = true
    · rw [if_pos hx] at h
      cases b with
      | true =>
        rcases ih h with h1 | ⟨h2, h3⟩
        · exact Or.inl h1
        · exact Or.inr ⟨List.mem_cons_of_mem _ h2, h3⟩
      | false =>
        rcases List.mem_cons.mp h with h1 | h1
        · exact Or.inl h1
        · rcases ih h1 with h2 | ⟨h2, h3⟩
          · exact Or.inl h2
          · exact Or.inr ⟨List.mem_cons_of_mem _ h2, h3⟩
    · rw [if_neg hx] at h
      rcases List.mem_cons.mp h with h1 | h1
      · subst h1
        exact Or.inr ⟨List.mem_cons_self _ _, Bool.eq_false_iff.mpr hx⟩
      · rcases ih h1 with h2 | ⟨h2, h3⟩
        · exact Or.inl h2
        · exact Or.inr ⟨List.mem_cons_of_mem _ h2, h3⟩

theorem mem_dropEnds {p : Char → Bool} {l : List Char} {c : Char}
    (h : c ∈ ((l.dropWhile p).reverse.dropWhile p).reverse) : c ∈ l := by
  rw [List.mem_reverse] at h
  have h1 : c ∈ (l.dropWhile p).reverse := (List.dropWhile_sublist p).mem h
  rw [List.mem_reverse] at h1
  exact (List.dropWhile_sublist p).mem h1

theorem head?_dropWhile_false {p : Char → Bool} {l : List Char} {c : Char}
    (h : (l.dropWhile p).head? = some c) : p c = false := by
  induction l with
  | nil => simp [List.dropWhile] at h
  | cons x xs ih =>
    rw [List.dropWhile_cons] at h
    by_cases hx : p x = true
    · rw [if_pos hx] at h
      exact ih h
    · rw [if_neg hx] at h
      simp only [List.head?_cons, Option.some.injEq] at h
      subst h
      exact Bool.eq_false_iff.mpr hx

theorem dropEnds_prefixOf (p : Char → Bool) (l : List Char) :
    ((l.dropWhile p).reverse.dropWhile p).reverse <+: l.dropWhile p := by
  conv_rhs => rw [← List.reverse_reverse (l.dropWhile p)]
  exact List.reverse_prefix.mpr (List.dropWhile_suffix p)

theorem head?_of_take {l : List Char} {n : Nat} {c : Char}
    (h : (l.take n).head? = some c) : l.head? = some c := by
  cases l <;> cases n <;> simp_all

theorem head?_of_prefix {l m : List Char} {c : Char} (hp : l <+: m) (h : l.head? = some c) :
    m.head? = some c := by
  obtain ⟨t, ht⟩ := hp
  subst ht
  cases l with
  | nil => simp at h
  | cons a as => simpa using h

/-- C4 (amended): for every normalizer and every input, `sanitizeSegment`
returns only characters of the class `[A-Za-z0-9._- ]`, of length at most
80, with no leading hyphen or dot; and whenever the pre-truncation result
already fits in 80 characters (i.e. the final `slice` truncates nothing)
there is also no trailing hyphen or dot.  (Truncation can expose a
trailing hyphen or dot — see the counterexample.) -/
theorem c4_sanitize_segment_amended (normalize : String → String) (input : String) :
    (∀ c ∈ (sanitizeSegment normalize input).data,
        c.isAlphanum = true ∨ c = '.' ∨ c = '_' ∨ c = '-' ∨ c = ' ') ∧
    (sanitizeSegment normalize input).length ≤ 80 ∧
    (∀ c, (sanitizeSegment normalize input).data.head? = some c → c ≠ '-' ∧ c ≠ '.') ∧
    ((sanitizePreTrunc normalize input).length ≤ 80 →
      ∀ c, (sanitizeSegment normalize input).data.getLast? = some c → c ≠ '-' ∧ c ≠ '.') := by
  refine ⟨?_, ?_, ?_, ?_⟩
  · intro c hc
    have h1 : c ∈ sanitizePreTrunc normalize input := List.mem_of_mem_take hc
    unfold sanitizePreTrunc stripHyDotEnds at h1
    have h2 := mem_dropEnds h1
    rcases mem_collapseRuns h2 with h3 | ⟨h3, _⟩
    · subst h3; tauto
    · rcases mem_collapseRuns h3 with h4 | ⟨h4, hws⟩
      · subst h4; tauto
      · unfold jsTrimList at h4
        have h5 := mem_dropEnds h4
        have h6 := List.of_mem_filter h5
        rw [keepSegChar, hws] at h6
        simp only [Bool.or_false, Bool.or_eq_true, decide_eq_true_eq] at h6
        tauto
  · exact sanitizeSegment_length_le normalize input
  · intro c hc
    have h1 : (sanitizePreTrunc normalize input).head? = some c := head?_of_take hc
    unfold sanitizePreTrunc stripHyDotEnds at h1
    have h2 := head?_of_prefix (dropEnds_prefixOf hyDotChar _) h1
    have h3 := head?_dropWhile_false h2
    rw [hyDotChar] at h3
    simp only [Bool.or_eq_false_iff, decide_eq_false_iff_not] at h3
    exact h3
  · intro hlen c hc
    rw [show (sanitizeSegment normalize input).data =
        (sanitizePreTrunc normalize input).take MAX_SLUG_LENGTH from rfl,
      List.take_of_length_le
        (show (sanitizePreTrunc normalize input).length ≤ MAX_SLUG_LENGTH from hlen)] at hc
    unfold sanitizePreTrunc stripHyDotEnds at hc
    rw [List.getLast?_reverse] at hc
    have h3 := head?_dropWhile_false hc
    rw [hyDotChar] at h3
    simp only [Bool.or_eq_false_iff, decide_eq_false_iff_not] at h3
    exact h3

/-- Input whose sanitized form is 81 characters before truncation, with a
hyphen (from the collapsed space) at position 79. -/
def c4Input : String := ⟨List.replicate 79 'a' ++ [' ', 'a']⟩

/-- Counterexample to C4 as stated: on `c4Input` (79 `a`s, a space, one
more `a`; NFKD acts as the identity on this ASCII string, hence
`normalize = id`) the final `slice(0, 80)` cuts after the hyphen that
replaced the space, so the output ends in a hyphen. -/
theorem c4_sanitize_segment_counterexample :
    (sanitizeSegment id c4Input).data.getLast? = some '-' ∧
    (sanitizeSegment id c4Input).length = 80 := by
  constructor
  · decide
  · decide

/-- Witness for C4 (amended) at a concrete input, discharging the
`head?`/`getLast?`/no-truncation hypotheses by evaluation. -/
theorem c4_sanitize_segment_amended_witness :
    ('A' ≠ '-' ∧ 'A' ≠ '.') ∧ ('t' ≠ '-' ∧ 't' ≠ '.') ∧
    (sanitizeSegment id "  A Study: Language & Thought!  ").length ≤ 80 := by
  have h := c4_sanitize_segment_amended id "  A Study: Language & Thought!  "
  exact ⟨h.2.2.1 'A' (by decide), h.2.2.2 (by decide) 't' (by decide), h.2.1⟩

/-! ### C8 -/

/-- `s` starts with `pre`. -/
def strStarts (s pre : String) : Prop :=
  ∃ rest : String, s = pre ++ rest

/-- C8: `buildItemSlug` returns `"<key>-<sanitized-title-or-'untitled'>"`,
its length is at most 80 plus the key length plus one separator, and on
key `ABCD1234` with title `"My: Title Here"` (NFKD is the identity on this
ASCII title) the slug starts with `ABCD1234-` and contains
`My-Title-Here`. -/
theorem c8_build_item_slug (normalize : String → String) (key title : String) :
    buildItemSlug normalize key title =
      key ++ "-" ++ (if sanitizeSegment normalize title = "" then "untitled"
                     else sanitizeSegment normalize title) ∧
    (buildItemSlug normalize key title).length ≤ 80 + key.length + 1 ∧
    (normalize "My: Title Here" = "My: Title Here" →
      strStarts (buildItemSlug normalize "ABCD1234" "My: Title Here") "ABCD1234-" ∧
      strContains (buildItemSlug normalize "ABCD1234" "My: Title Here") "My-Title-Here") := by
  have hlen : ∀ nm t, (if sanitizeSegment nm t = "" then "untitled"
      else sanitizeSegment nm t).length ≤ 80 := by
    intro nm t
    by_cases h : sanitizeSegment nm t = ""
    · rw [if_pos h]; decide
    · rw [if_neg h]; exact sanitizeSegment_length_le nm t
  have hmain : ∀ nm k t, buildItemSlug nm k t =
      k ++ "-" ++ (if sanitizeSegment nm t = "" then "untitled" else sanitizeSegment nm t) := by
    intro nm k t
    set tp := if sanitizeSegment nm t = "" then "untitled" else sanitizeSegment nm t with htp
    show (⟨(k ++ "-" ++ tp).data.take (MAX_SLUG_LENGTH + k.length + 1)⟩ : String) =
      k ++ "-" ++ tp
    rw [List.take_of_length_le]
    have h1 : (k ++ "-" ++ tp).data.length = k.length + 1 + tp.length := by
      simp [String.data_append, List.length_append]
      omega
    have h2 := hlen nm t
    rw [← htp] at h2
    rw [h1]
    show k.length + 1 + tp.length ≤ 80 + k.length + 1
    omega
  refine ⟨hmain normalize key title, ?_, ?_⟩
  · have h1 : (buildItemSlug normalize key title).length ≤ MAX_SLUG_LENGTH + key.length + 1 := by
      show ((key ++ "-" ++ _).data.take (MAX_SLUG_LENGTH + key.length + 1)).length ≤ _
      exact List.length_take_le _ _
    simpa [MAX_SLUG_LENGTH] using h1
  · intro hnm
    have hs : sanitizeSegment normalize "My: Title Here" = "My-Title-Here" := by
      have : sanitizeSegment normalize "My: Title Here" =
          sanitizeSegment id "My: Title Here" := by
        unfold sanitizeSegment sanitizePreTrunc
        rw [hnm]
        rfl
      rw [this]
      decide
    have heq : buildItemSlug normalize "ABCD1234" "My: Title Here" = "ABCD1234-My-Title-Here" := by
      rw [hmain normalize "ABCD1234" "My: Title Here", hs]
      decide
    constructor
    · exact ⟨"My-Title-Here", by rw [heq]; decide⟩
    · exact ⟨"ABCD1234-", "", by rw [heq]; decide⟩

/-- Witness for C8 with the identity normalizer. -/
theorem c8_build_item_slug_witness :
    strStarts (buildItemSlug id "ABCD1234" "My: Title Here") "ABCD1234-" ∧
    strContains (buildItemSlug id "ABCD1234" "My: Title Here") "My-Title-Here" :=
  (c8_build_item_slug id "ABCD1234" "My: Title Here").2.2 rfl

/-! ### C5 -/

/-- The claim's specification of `noteCount`: the number of distinct note
identifiers whose parent is the item itself or any of the item's
attachments. -/
def claimNoteCount (db : ZoteroDB) (itemId : Nat) : Nat :=
  ((db.itemNotes.filter fun n =>
      n.parentItemID = some itemId ||
        (attachmentRowsOf db itemId).any (fun a => n.parentItemID = some a.itemID)).map
    (fun n => n.itemID)).dedup.length

/-- The `note_targets`/`note_values` SQL computation agrees with the
claim's union-and-deduplicate description. -/
theorem noteCountOf_eq_claimNoteCount (db : ZoteroDB) (itemId : Nat) :
    noteCountOf db itemId = claimNoteCount db itemId := by
  unfold noteCountOf claimNoteCount noteTargetsOf
  rw [← List.card_toFinset, ← List.card_toFinset]
  congr 1
  ext x
  simp only [List.mem_toFinset, List.mem_map, List.mem_flatMap, List.mem_filter, List.mem_cons,
    List.any_eq_true, decide_eq_true_eq, Bool.or_eq_true]
  constructor
  · rintro ⟨n, ⟨t, ht, hn, hp⟩, hx⟩
    rcases ht with rfl | ht
    · exact ⟨n, ⟨hn, Or.inl hp⟩, hx⟩
    · obtain ⟨a, ha, hta⟩ := ht
      exact ⟨n, ⟨hn, Or.inr ⟨a, ha, by rw [hp, ← hta]⟩⟩, hx⟩
  · rintro ⟨n, ⟨hn, hp | ⟨a, ha, hpa⟩⟩, hx⟩
    · exact ⟨n, ⟨itemId, Or.inl rfl, hn, hp⟩, hx⟩
    · exact ⟨n, ⟨a.itemID, Or.inr ⟨a, ha, rfl⟩, hn, hpa⟩, hx⟩

/-- C5: every summary's `noteCount` equals the number of distinct note
identifiers whose parent is the item itself or any of the item's
attachments; in particular, on the fixture store (`witDB`: one matching
item with one PDF attachment, one note on the item and one note on the
attachment) `searchItems "distributed"` reports `hasPdf = true`,
`pdfCount = 1`, `noteCount = 2`. -/
theorem c5_note_count :
    (∀ (db : ZoteroDB) (itemId : Nat) (s : ZoteroItemSummary),
        getItemSummary db itemId = some s → s.noteCount = claimNoteCount db itemId) ∧
    (searchItems witDB "distributed" 200).map (fun s => (s.hasPdf, s.pdfCount, s.noteCount)) =
      [(true, 1, 2)] := by
  constructor
  · intro db itemId s h
    obtain ⟨row, hrow, hs⟩ := Option.map_eq_some'.mp h
    subst hs
    have hnc : row.noteCount =
        (if noteCountOf db itemId = 0 then none else some (noteCountOf db itemId)) := by
      unfold getBaseItemRow at hrow
      rcases hfi : db.items.find? (fun i => i.itemID = itemId) with _ | i <;>
        rw [hfi] at hrow <;> dsimp only at hrow
      · simp at hrow
      rcases hft : db.itemTypes.find? (fun t => t.itemTypeID = i.itemTypeID) with _ | t <;>
        rw [hft] at hrow <;> dsimp only at hrow
      · simp at hrow
      by_cases hty : (t.typeName = "attachment" || t.typeName = "note" ||
          t.typeName = "annotation") = true
      · rw [if_pos hty] at hrow; simp at hrow
      · rw [if_neg hty] at hrow
        have := Option.some.inj hrow
        rw [← this]
    show row.noteCount.getD 0 = claimNoteCount db itemId
    rw [hnc, ← noteCountOf_eq_claimNoteCount]
    by_cases h0 : noteCountOf db itemId = 0
    · rw [if_pos h0, h0]; rfl
    · rw [if_neg h0]; rfl
  · decide

/-- The summary produced for item 1 of `witDB`. -/
def witSummary : ZoteroItemSummary :=
  { itemId := 1, key := "ITEM1KEY", libraryId := 1, libraryName := "My Library",
    itemType := "journalArticle", title := "Distributed Cognition",
    creatorsText := "Hutchins, Edwin", date := some "1995", year := some "1995",
    dateAdded := some "2024-01-01", dateModified := some "2024-01-02",
    doi := some "10.1234/demo", tagsText := some "cognition", pdfCount := 1, hasPdf := true,
    noteCount := 2 }

/-- Witness for C5 at the concrete store. -/
theorem c5_note_count_witness : witSummary.noteCount = claimNoteCount witDB 1 :=
  c5_note_count.1 witDB 1 witSummary rfl

/-! ### C7 -/

/-- Reference decimal-digit expansion used to reason about `Nat.repr`. -/
def natDigits (n : Nat) : List Char :=
  if n < 10 then [Nat.digitChar n]
  else natDigits (n / 10) ++ [Nat.digitChar (n % 10)]
decreasing_by exact Nat.div_lt_self (by omega) (by omega)

theorem natDigits_ge (n : Nat) (h : ¬n < 10) :
    natDigits n = natDigits (n / 10) ++ [Nat.digitChar (n % 10)] := by
  rw [natDigits, if_neg h]

theorem toDigitsCore_eq_natDigits :
    ∀ (fuel n : Nat) (ds : List Char), n < fuel →
      Nat.toDigitsCore 10 fuel n ds = natDigits n ++ ds := by
  intro fuel
  induction fuel with
  | zero => intro n ds h; omega
  | succ fuel ih =>
    intro n ds h
    rw [Nat.toDigitsCore]
    by_cases h10 : n / 10 = 0
    · have hlt : n < 10 := by omega
      rw [if_pos h10, natDigits, if_pos hlt, Nat.mod_eq_of_lt hlt]
      rfl
    · have hlt : n / 10 < fuel := by omega
      rw [if_neg h10, ih (n / 10) _ hlt, natDigits_ge n (by omega)]
      simp [List.append_assoc]

theorem natRepr_eq_natDigits (n : Nat) : Nat.repr n = ⟨natDigits n⟩ := by
  show (Nat.toDigits 10 n).asString = _
  rw [Nat.toDigits, toDigitsCore_eq_natDigits (n + 1) n [] (Nat.lt_succ_self n)]
  simp [List.asString]

/-- Inverse of `Nat.digitChar` on decimal digits. -/
def digitVal (c : Char) : Nat := c.toNat - 48

theorem digitVal_digitChar {d : Nat} (h : d < 10) : digitVal (Nat.digitChar d) = d := by
  interval_cases d <;> rfl

/-- Decimal value of a digit list (left inverse of `natDigits`). -/
def valOfDigits (l : List Char) : Nat :=
  l.foldl (fun a c => 10 * a + digitVal c) 0

theorem valOfDigits_append (l : List Char) (c : Char) :
    valOfDigits (l ++ [c]) = 10 * valOfDigits l + digitVal c := by
  unfold valOfDigits
  rw [List.foldl_append]
  rfl

theorem valOfDigits_natDigits (n : Nat) : valOfDigits (natDigits n) = n := by
  induction n using Nat.strong_induction_on with
  | _ n ih =>
    rw [natDigits]
    by_cases h : n < 10
    · rw [if_pos h]
      show 10 * 0 + digitVal (Nat.digitChar n) = n
      rw [digitVal_digitChar h]
      omega
    · rw [if_neg h, valOfDigits_append,
        ih (n / 10) (Nat.div_lt_self (by omega) (by omega)),
        digitVal_digitChar (Nat.mod_lt n (by omega))]
      omega

theorem natRepr_injective : Function.Injective Nat.repr := by
  intro a b h
  rw [natRepr_eq_natDigits, natRepr_eq_natDigits] at h
  have hd : natDigits a = natDigits b := congrArg String.data h
  have := congrArg valOfDigits hd
  rwa [valOfDigits_natDigits, valOfDigits_natDigits] at this

theorem strAppend_left_cancel {a b c : String} (h : a ++ b = a ++ c) : b = c := by
  have hd := congrArg String.data h
  rw [String.data_append, String.data_append] at hd
  exact String.ext (List.append_cancel_left hd)

theorem strAppend_right_cancel {a b c : String} (h : a ++ c = b ++ c) : a = b := by
  have hd := congrArg String.data h
  rw [String.data_append, String.data_append] at hd
  exact String.ext (List.append_cancel_right hd)

theorem uniqueCandidate_injective (dir name ext : String) :
    Function.Injective (uniqueCandidate dir name ext) := by
  intro k1 k2 h
  unfold uniqueCandidate pathJoin at h
  have h2 : name ++ "-" ++ Nat.repr k1 ++ ext = name ++ "-" ++ Nat.repr k2 ++ ext := by
    by_cases h0 : dir = ""
    · rw [if_pos h0, if_pos h0] at h
      exact h
    · by_cases h1 : dir = "/"
      · rw [if_neg h0, if_neg h0, if_pos h1, if_pos h1] at h
        exact strAppend_left_cancel h
      · rw [if_neg h0, if_neg h0, if_neg h1, if_neg h1] at h
        exact strAppend_left_cancel h
  have h3 := strAppend_right_cancel h2
  exact natRepr_injective (strAppend_left_cancel h3)

theorem pathExistsB_iff_mem (fs : FS) (p : String) :
    pathExistsB fs p = true ↔ p ∈ fs.files ++ fs.dirs := by
  simp [pathExistsB, List.mem_append]

theorem exists_free_candidate (fs : FS) (dir name ext : String) :
    ∃ j < fs.files.length + fs.dirs.length + 1,
      pathExistsB fs (uniqueCandidate dir name ext (2 + j)) = false := by
  by_contra hc
  push_neg at hc
  have hall : ∀ j < fs.files.length + fs.dirs.length + 1,
      uniqueCandidate dir name ext (2 + j) ∈ fs.files ++ fs.dirs := by
    intro j hj
    exact (pathExistsB_iff_mem fs _).mp (Bool.not_eq_false _ |>.mp (by simpa using hc j hj))
  set N := fs.files.length + fs.dirs.length + 1 with hN
  have hinj : Function.Injective (fun j : Nat => uniqueCandidate dir name ext (2 + j)) := by
    intro x y hxy
    have := uniqueCandidate_injective dir name ext hxy
    omega
  have hsub : (Finset.range N).image (fun j => uniqueCandidate dir name ext (2 + j)) ⊆
      (fs.files ++ fs.dirs).toFinset := by
    intro x hx
    obtain ⟨j, hj, rfl⟩ := Finset.mem_image.mp hx
    rw [List.mem_toFinset]
    exact hall j (Finset.mem_range.mp hj)
  have hcard := Finset.card_le_card hsub
  rw [Finset.card_image_of_injective _ hinj, Finset.card_range] at hcard
  have hlen : (fs.files ++ fs.dirs).toFinset.card ≤ N - 1 := by
    calc (fs.files ++ fs.dirs).toFinset.card ≤ (fs.files ++ fs.dirs).length :=
          List.toFinset_card_le _
      _ = N - 1 := by rw [List.length_append]; omega
  omega

theorem uniqueSuffixLoop_eq_of_least (fs : FS) (dir name ext : String) :
    ∀ (fuel k k0 : Nat), k ≤ k0 → k0 - k ≤ fuel →
      pathExistsB fs (uniqueCandidate dir name ext k0) = false →
      (∀ j, k ≤ j → j < k0 → pathExistsB fs (uniqueCandidate dir name ext j) = true) →
      uniqueSuffixLoop fs dir name ext fuel k = uniqueCandidate dir name ext k0 := by
  intro fuel
  induction fuel with
  | zero =>
    intro k k0 hk hfuel hfree _
    have : k = k0 := by omega
    subst this
    rfl
  | succ fuel ih =>
    intro k k0 hk hfuel hfree htaken
    rw [uniqueSuffixLoop]
    by_cases hkk : k = k0
    · subst hkk
      rw [hfree]
      simp
    · have hklt : k < k0 := by omega
      rw [htaken k (le_refl k) hklt]
      simp only [if_true]
      exact ih (k + 1) k0 (by omega) (by omega) hfree
        (fun j hj1 hj2 => htaken j (by omega) hj2)

/-- C7: `makeUniqueFilePath` returns its argument unchanged when no entry
exists at that path; when the path exists it returns the first candidate
`<name>-<k><ext>` (k = 2, 3, …) that does not exist; concretely, writing
`doc.pdf` next to an existing `doc.pdf` yields `doc-2.pdf`, and a further
collision yields `doc-3.pdf`. -/
theorem c7_make_unique_file_path :
    (∀ (fs : FS) (targetPath : String),
        pathExistsB fs targetPath = false → makeUniqueFilePath fs targetPath = targetPath) ∧
    (∀ (fs : FS) (targetPath : String),
        pathExistsB fs targetPath = true →
        ∃ k, 2 ≤ k ∧
          pathExistsB fs
              (uniqueCandidate (pathParseDir targetPath) (pathParseName targetPath)
                (pathParseExt targetPath) k) = false ∧
          (∀ j, 2 ≤ j → j < k →
            pathExistsB fs
                (uniqueCandidate (pathParseDir targetPath) (pathParseName targetPath)
                  (pathParseExt targetPath) j) = true) ∧
          makeUniqueFilePath fs targetPath =
            uniqueCandidate (pathParseDir targetPath) (pathParseName targetPath)
              (pathParseExt targetPath) k) ∧
    makeUniqueFilePath ⟨["/out/doc.pdf"], []⟩ "/out/doc.pdf" = "/out/doc-2.pdf" ∧
    makeUniqueFilePath ⟨["/out/doc.pdf", "/out/doc-2.pdf"], []⟩ "/out/doc.pdf" =
      "/out/doc-3.pdf" := by
  refine ⟨?_, ?_, by decide, by decide⟩
  · intro fs targetPath h
    unfold makeUniqueFilePath
    rw [h]
    rfl
  · intro fs targetPath h
    set dir := pathParseDir targetPath
    set name := pathParseName targetPath
    set ext := pathParseExt targetPath
    have hex := exists_free_candidate fs dir name ext
    have hexP : ∃ j, pathExistsB fs (uniqueCandidate dir name ext (2 + j)) = false := by
      obtain ⟨j, _, hj⟩ := hex
      exact ⟨j, hj⟩
    set j0 := Nat.find hexP with hj0
    refine ⟨2 + j0, by omega, Nat.find_spec hexP, ?_, ?_⟩
    · intro j hj2 hjlt
      have hjj : j - 2 < j0 := by omega
      have := Nat.find_min hexP hjj
      have hj' : 2 + (j - 2) = j := by omega
      rw [hj'] at this
      cases hpe : pathExistsB fs (uniqueCandidate dir name ext j) with
      | false => exact absurd hpe this
      | true => rfl
    · unfold makeUniqueFilePath
      rw [h]
      simp only [if_true]
      apply uniqueSuffixLoop_eq_of_least fs dir name ext _ 2 (2 + j0) (by omega)
      · obtain ⟨j, hjN, hj⟩ := hex
        have : j0 ≤ j := Nat.find_min' hexP hj
        omega
      · exact Nat.find_spec hexP
      · intro j hj2 hjlt
        have hjj : j - 2 < j0 := by omega
        have hmin := Nat.find_min hexP hjj
        have hj' : 2 + (j - 2) = j := by omega
        rw [hj'] at hmin
        cases hpe : pathExistsB fs (uniqueCandidate dir name ext j) with
        | false => exact absurd hpe hmin
        | true => rfl

/-- Witness for C7: both hypothesis-carrying parts applied at concrete
filesystems. -/
theorem c7_make_unique_file_path_witness :
    makeUniqueFilePath ⟨[], []⟩ "/out/doc.pdf" = "/out/doc.pdf" ∧
    ∃ k, 2 ≤ k ∧
      pathExistsB ⟨["/out/doc.pdf"], []⟩
          (uniqueCandidate (pathParseDir "/out/doc.pdf") (pathParseName "/out/doc.pdf")
            (pathParseExt "/out/doc.pdf") k) = false ∧
      (∀ j, 2 ≤ j → j < k →
        pathExistsB ⟨["/out/doc.pdf"], []⟩
            (uniqueCandidate (pathParseDir "/out/doc.pdf") (pathParseName "/out/doc.pdf")
              (pathParseExt "/out/doc.pdf") j) = true) ∧
      makeUniqueFilePath ⟨["/out/doc.pdf"], []⟩ "/out/doc.pdf" =
        uniqueCandidate (pathParseDir "/out/doc.pdf") (pathParseName "/out/doc.pdf")
          (pathParseExt "/out/doc.pdf") k :=
  ⟨c7_make_unique_file_path.1 ⟨[], []⟩ "/out/doc.pdf" rfl,
    c7_make_unique_file_path.2.1 ⟨["/out/doc.pdf"], []⟩ "/out/doc.pdf" rfl⟩

/-! ### C10 -/

theorem splitSeps_ne_nil (l : List Char) : splitSeps l ≠ [] := by
  cases l with
  | nil => simp [splitSeps]
  | cons c rest =>
    rw [splitSeps]
    by_cases hc : sepChar c = true
    · simp [hc]
    · simp only [hc]
      rcases hsp : splitSeps rest with _ | ⟨s, ss⟩ <;> simp

theorem splitSeps_no_sep (l : List Char) (h : ∀ c ∈ l, sepChar c = false) :
    splitSeps l = [l] := by
  induction l with
  | nil => rfl
  | cons c rest ih =>
    rw [splitSeps]
    have hc : sepChar c = false := h c (List.mem_cons_self _ _)
    rw [hc]
    simp only [Bool.false_eq_true, if_false]
    rw [ih (fun x hx => h x (List.mem_cons_of_mem _ hx))]

theorem splitSeps_len_two (l : List Char) (c : Char) (hm : c ∈ l) (hc : sepChar c = true) :
    2 ≤ (splitSeps l).length := by
  induction l with
  | nil => simp at hm
  | cons x rest ih =>
    rw [splitSeps]
    by_cases hx : sepChar x = true
    · simp only [hx, if_true, List.length_cons]
      have := splitSeps_ne_nil rest
      have : 1 ≤ (splitSeps rest).length := by
        cases hsp : splitSeps rest with
        | nil => exact absurd hsp this
        | cons a b => simp
      omega
    · rcases List.mem_cons.mp hm with rfl | hm2
      · rw [hc] at hx; simp at hx
      · simp only [hx, Bool.false_eq_true, if_false]
        rcases hsp : splitSeps rest with _ | ⟨s, ss⟩
        · exact absurd hsp (splitSeps_ne_nil rest)
        · have := ih hm2
          rw [hsp] at this
          simpa using this

theorem splitSeps_getLast_spec (l : List Char) :
    ∃ front seg, (splitSeps l).getLast? = some seg ∧ l = front ++ seg ∧
      (∀ c ∈ seg, sepChar c = false) ∧
      (front = [] ∨ ∃ f c, front = f ++ [c] ∧ sepChar c = true) := by
  induction l with
  | nil => exact ⟨[], [], rfl, rfl, by simp, Or.inl rfl⟩
  | cons c rest ih =>
    obtain ⟨front, seg, hlast, heq, hseg, hfront⟩ := ih
    by_cases hc : sepChar c = true
    · refine ⟨c :: front, seg, ?_, by rw [heq, List.cons_append], hseg, ?_⟩
      · rw [splitSeps, hc]
        simp only [if_true]
        rcases hsp : splitSeps rest with _ | ⟨s, ss⟩
        · exact absurd hsp (splitSeps_ne_nil rest)
        · rw [hsp] at hlast
          rw [List.getLast?_cons_cons]
          exact hlast
      · right
        rcases hfront with rfl | ⟨f, c2, hf, hc2⟩
        · exact ⟨[], c, rfl, hc⟩
        · exact ⟨c :: f, c2, by rw [hf, List.cons_append], hc2⟩
    · rw [splitSeps]
      simp only [hc, Bool.false_eq_true, if_false]
      rcases hsp : splitSeps rest with _ | ⟨s, ss⟩
      · exact absurd hsp (splitSeps_ne_nil rest)
      rw [hsp] at hlast
      cases ss with
      | nil =>
        -- splitSeps rest = [s]: rest is separator-free, so front = [] and seg = rest
        have hsegs : s = seg := by simpa using hlast
        have hfront0 : front = [] := by
          rcases hfront with rfl | ⟨f, c2, hf, hc2⟩
          · rfl
          · exfalso
            have hmem : c2 ∈ rest := by
              rw [heq, hf]
              exact List.mem_append_left _ (List.mem_append_right _ (List.mem_singleton.mpr rfl))
            have h2 := splitSeps_len_two rest c2 hmem hc2
            rw [hsp] at h2
            simp at h2
        refine ⟨[], c :: seg, ?_, by rw [heq, hfront0]; simp, ?_, Or.inl rfl⟩
        · rw [← hsegs]
          rfl
        · intro x hx
          rcases List.mem_cons.mp hx with rfl | hx2
          · exact Bool.eq_false_iff.mpr hc
          · exact hseg x hx2
      | cons s2 ss2 =>
        -- the last segment is unchanged; front gains c and stays sep-terminated
        have hfront2 : ∃ f c2, front = f ++ [c2] ∧ sepChar c2 = true := by
          rcases hfront with rfl | hf
          · exfalso
            have : splitSeps rest = [rest] := by
              apply splitSeps_no_sep
              intro x hx
              exact hseg x (by rw [heq] at hx; simpa using hx)
            rw [hsp] at this
            simp at this
          · exact hf
        refine ⟨c :: front, seg, ?_, by rw [heq, List.cons_append], hseg, ?_⟩
        · rw [List.getLast?_cons_cons]
          rw [List.getLast?_cons_cons] at hlast
          exact hlast
        · right
          obtain ⟨f, c2, hf, hc2⟩ := hfront2
          exact ⟨c :: f, c2, by rw [hf, List.cons_append], hc2⟩


/-- The final path segment that `deriveAttachmentFilename` extracts from a
present raw path (before the empty-segment fallback). -/
def derivedSegOf (p : String) : List Char :=
  ((splitSeps ((if startsWithL p.data "storage:".data then p.data.drop 8 else p.data).dropWhile
      sepChar)).getLast?).getD []

theorem deriveAttachmentFilename_regular (p key : String) (hp : p ≠ "")
    (hseg : derivedSegOf p ≠ []) :
    (deriveAttachmentFilename (some p) key).data = derivedSegOf p := by
  obtain ⟨front, seg, hlast, heq, hsegc, hfront⟩ :=
    splitSeps_getLast_spec
      ((if startsWithL p.data "storage:".data then p.data.drop 8 else p.data).dropWhile sepChar)
  have hderiv : derivedSegOf p = seg := by
    rw [derivedSegOf, hlast]
    rfl
  have hne : (⟨seg⟩ : String) ≠ "" := by
    intro hmk
    exact hseg (by rw [hderiv]; exact congrArg String.data hmk)
  rw [hderiv]
  unfold deriveAttachmentFilename
  dsimp only
  rw [if_neg hp]
  by_cases hst : startsWithL p.data "storage:".data = true
  · rw [if_pos hst] at hlast ⊢
    dsimp only
    rw [hlast,
      show ((some seg).map (fun l => (⟨l⟩ : String))).getD key = (⟨seg⟩ : String) from rfl,
      if_neg hne]
  · rw [if_neg hst] at hlast ⊢
    rw [hlast,
      show ((some seg).map (fun l => (⟨l⟩ : String))).getD key = (⟨seg⟩ : String) from rfl,
      if_neg hne]

theorem path_decomp (p : String) :
    ∃ pre : List Char, p.data = pre ++ derivedSegOf p ∧
      (∀ c ∈ derivedSegOf p, sepChar c = false) ∧
      (pre = [] ∨ ∃ f c, pre = f ++ [c] ∧ (sepChar c = true ∨ c = ':')) := by
  obtain ⟨front, seg, hlast, heq, hsegc, hfront⟩ :=
    splitSeps_getLast_spec
      ((if startsWithL p.data "storage:".data then p.data.drop 8 else p.data).dropWhile sepChar)
  have hderiv : derivedSegOf p = seg := by rw [derivedSegOf, hlast]; rfl
  set w : List Char := if startsWithL p.data "storage:".data then p.data.drop 8 else p.data
    with hw
  have hwsplit : w = w.takeWhile sepChar ++ (front ++ seg) := by
    rw [← heq]
    exact (List.takeWhile_append_dropWhile sepChar w).symm
  have hstor : p.data = (if startsWithL p.data "storage:".data then "storage:".data else []) ++
      w := by
    by_cases hst : startsWithL p.data "storage:".data = true
    · rw [if_pos hst, hw, if_pos hst]
      have hpre : "storage:".data <+: p.data := by
        have := (List.isPrefixOf_iff_prefix).mp hst
        exact this
      have htake := List.prefix_iff_eq_take.mp hpre
      have hlen8 : "storage:".data.length = 8 := rfl
      rw [hlen8] at htake
      conv_lhs => rw [← List.take_append_drop 8 p.data]
      rw [← htake]
    · rw [if_neg hst, hw, if_neg hst]
      rfl
  refine ⟨(if startsWithL p.data "storage:".data then "storage:".data else []) ++
      (w.takeWhile sepChar ++ front), ?_, ?_, ?_⟩
  · rw [hderiv]
    conv_lhs => rw [hstor, hwsplit]
    simp [List.append_assoc]
  · rw [hderiv]; exact hsegc
  · -- classify the last character of the prefix
    rcases hfront with rfl | ⟨f, c, hf, hc⟩
    · rcases List.eq_nil_or_concat (w.takeWhile sepChar) with htw | ⟨f2, c2, htw⟩
      · by_cases hst : startsWithL p.data "storage:".data = true
        · right
          refine ⟨['s', 't', 'o', 'r', 'a', 'g', 'e'], ':', ?_, Or.inr rfl⟩
          rw [if_pos hst, htw]
          rfl
        · left
          rw [if_neg hst, htw]
          rfl
      · right
        rw [List.concat_eq_append] at htw
        have hc2 : sepChar c2 = true := by
          have : c2 ∈ w.takeWhile sepChar := by
            rw [htw]; exact List.mem_append_right _ (List.mem_singleton.mpr rfl)
          exact List.mem_takeWhile_imp this
        refine ⟨(if startsWithL p.data "storage:".data then "storage:".data else []) ++ f2, c2,
          ?_, Or.inl hc2⟩
        rw [htw]
        simp [List.append_assoc]
    · right
      refine ⟨(if startsWithL p.data "storage:".data then "storage:".data else []) ++
        (w.takeWhile sepChar ++ f), c, ?_, Or.inl hc⟩
      rw [hf]
      simp [List.append_assoc]

theorem lower_endsWith_pdf_iff (p key : String) (hp : p ≠ "") (hseg : derivedSegOf p ≠ []) :
    endsWithL (lowerL (deriveAttachmentFilename (some p) key).data) ".pdf".data =
      endsWithL (lowerL p.data) ".pdf".data := by
  rw [deriveAttachmentFilename_regular p key hp hseg]
  obtain ⟨pre, hpd, hsegc, hpre⟩ := path_decomp p
  rw [Bool.eq_iff_iff]
  rw [endsWithL, endsWithL, List.isSuffixOf_iff_suffix, List.isSuffixOf_iff_suffix]
  rw [hpd]
  rw [show lowerL (pre ++ derivedSegOf p) = lowerL pre ++ lowerL (derivedSegOf p) from
    List.map_append _ _ _]
  have hlen1 : 1 ≤ (derivedSegOf p).length := by
    cases hsq : derivedSegOf p with
    | nil => exact absurd hsq hseg
    | cons a b => simp
  by_cases hlen : 4 ≤ (derivedSegOf p).length
  · constructor
    · intro h
      exact h.trans (List.suffix_append _ _)
    · intro h
      refine List.suffix_of_suffix_length_le h (List.suffix_append _ _) ?_
      simpa [lowerL] using hlen
  · constructor
    · intro h
      have := h.length_le
      simp [lowerL] at this
      omega
    · intro h
      exfalso
      rcases hpre with rfl | ⟨f, c, hf, hc⟩
      · have := h.length_le
        simp [lowerL] at this
        omega
      · subst hf
        have hshape : lowerL (f ++ [c]) ++ lowerL (derivedSegOf p) =
            lowerL f ++ (c.toLower :: lowerL (derivedSegOf p)) := by
          rw [show lowerL (f ++ [c]) = lowerL f ++ [c.toLower] from List.map_append _ _ _]
          simp [List.append_assoc]
        rw [hshape] at h
        have hsuf : (c.toLower :: lowerL (derivedSegOf p)) <:+
            lowerL f ++ (c.toLower :: lowerL (derivedSegOf p)) := List.suffix_append _ _
        have hsub : (c.toLower :: lowerL (derivedSegOf p)) <:+ ".pdf".data := by
          refine List.suffix_of_suffix_length_le hsuf h ?_
          simp [lowerL]
          omega
        have hmem : c.toLower ∈ ".pdf".data := hsub.subset (List.mem_cons_self _ _)
        rcases hc with hc | rfl
        · have : c = '/' ∨ c = '\\' := by
            rw [sepChar] at hc
            simpa using hc
          rcases this with rfl | rfl
          · exact absurd hmem (by decide)
          · exact absurd hmem (by decide)
        · exact absurd hmem (by decide)

theorem orderedIns_perm (le : α → α → Bool) (x : α) (l : List α) :
    List.Perm (orderedIns le x l) (x :: l) := by
  induction l with
  | nil => exact List.Perm.refl _
  | cons y ys ih =>
    rw [orderedIns]
    by_cases h : le x y = true
    · rw [if_pos h]
    · rw [if_neg h]
      exact (ih.cons y).trans (List.Perm.swap x y ys)

theorem insSortBy_perm (le : α → α → Bool) (l : List α) : List.Perm (insSortBy le l) l := by
  induction l with
  | nil => exact List.Perm.refl _
  | cons x xs ih =>
    rw [insSortBy]
    exact (orderedIns_perm le x (insSortBy le xs)).trans (ih.cons x)

theorem length_filter_filterMap (f : α → Option β) (g : β → Bool) (l : List α) :
    ((l.filterMap f).filter g).length = l.countP (fun r => ((f r).map g).getD false) := by
  induction l with
  | nil => rfl
  | cons x xs ih =>
    rw [List.filterMap_cons]
    cases hfx : f x with
    | none => rw [List.countP_cons, hfx]; simpa using ih
    | some b =>
      rw [List.countP_cons, hfx, List.filter_cons]
      cases hgb : g b with
      | false => simpa [hgb] using ih
      | true => simp [hgb, ih]

/-- C10 (amended): for an item whose every attachment row joins an `items`
row and carries a present raw path with a nonempty final segment, the
summary `pdfCount` equals the number of aggregate attachments whose
`isPdf` flag is true, and `hasPdf` holds exactly when the aggregate
contains an `isPdf` attachment.  (Without the path condition the two sides
differ: an absent path makes the aggregate derive the fallback filename
`<key>.pdf`, so `isPdf` is true regardless of content type, while the SQL
`pdfCount` tests the raw path — see the counterexample.) -/
theorem c10_pdf_count_amended (db : ZoteroDB) (itemId : Nat)
    (hwf : ∀ r ∈ attachmentRowsOf db itemId, ∃ ai ∈ db.items, ai.itemID = r.itemID)
    (hreg : ∀ r ∈ attachmentRowsOf db itemId,
      ∃ p, r.path = some p ∧ p ≠ "" ∧ derivedSegOf p ≠ []) :
    pdfCountOf db itemId =
      ((getAttachmentsForItem db itemId).filter (fun a => a.isPdf)).length ∧
    ∀ s, getItemSummary db itemId = some s →
      s.pdfCount = ((getAttachmentsForItem db itemId).filter (fun a => a.isPdf)).length ∧
      (s.hasPdf = true ↔ ∃ a ∈ getAttachmentsForItem db itemId, a.isPdf = true) := by
  have hcount : pdfCountOf db itemId =
      ((getAttachmentsForItem db itemId).filter (fun a => a.isPdf)).length := by
    unfold getAttachmentsForItem pdfCountOf
    rw [length_filter_filterMap]
    rw [List.Perm.countP_eq _ (insSortBy_perm _ _)]
    apply List.countP_congr
    intro r hr
    obtain ⟨p, hp, hpne, hsegne⟩ := hreg r hr
    obtain ⟨ai, hai, haiid⟩ := hwf r hr
    have hfind : ∃ a0, db.items.find? (fun x => x.itemID = r.itemID) = some a0 := by
      rw [← Option.isSome_iff_exists]
      rw [List.find?_isSome]
      exact ⟨ai, hai, by simpa using haiid⟩
    obtain ⟨a0, hfind⟩ := hfind
    rw [hfind]
    dsimp only
    have hbool : pdfTestSql r =
        ((match r.contentType with
            | some ct => containsSubL (lowerL ct.data) "pdf".data
            | none => false) ||
          endsWithL (lowerL (deriveAttachmentFilename r.path a0.key).data) ".pdf".data) := by
      rw [pdfTestSql, hp]
      rw [lower_endsWith_pdf_iff p a0.key hpne hsegne]
      cases r.contentType with
      | none => rfl
      | some ct => rfl
    rw [hbool]
    exact Iff.rfl
  refine ⟨hcount, ?_⟩
  intro s hs
  obtain ⟨row, hrow, hmap⟩ := Option.map_eq_some'.mp hs
  subst hmap
  have hpc : row.pdfCount =
      (if (attachmentRowsOf db itemId).isEmpty then none else some (pdfCountOf db itemId)) := by
    unfold getBaseItemRow at hrow
    rcases hfi : db.items.find? (fun i => i.itemID = itemId) with _ | i <;>
      rw [hfi] at hrow <;> dsimp only at hrow
    · simp at hrow
    rcases hft : db.itemTypes.find? (fun t => t.itemTypeID = i.itemTypeID) with _ | t <;>
      rw [hft] at hrow <;> dsimp only at hrow
    · simp at hrow
    by_cases hty : (t.typeName = "attachment" || t.typeName = "note" ||
        t.typeName = "annotation") = true
    · rw [if_pos hty] at hrow; simp at hrow
    · rw [if_neg hty] at hrow
      rw [← Option.some.inj hrow]
  have hpc2 : (mapSummary row).pdfCount =
      ((getAttachmentsForItem db itemId).filter (fun a => a.isPdf)).length := by
    show row.pdfCount.getD 0 = _
    rw [hpc, ← hcount]
    by_cases hemp : (attachmentRowsOf db itemId).isEmpty = true
    · rw [if_pos hemp]
      unfold pdfCountOf
      rw [List.isEmpty_iff.mp hemp]
      rfl
    · rw [if_neg hemp]
      rfl
  refine ⟨hpc2, ?_⟩
  rw [show (mapSummary row).hasPdf = decide ((mapSummary row).pdfCount > 0) from rfl, hpc2]
  constructor
  · intro h
    have hpos : 0 < ((getAttachmentsForItem db itemId).filter (fun a => a.isPdf)).length := by
      simpa using h
    obtain ⟨a, ha⟩ := List.exists_mem_of_length_pos hpos
    have := List.mem_filter.mp ha
    exact ⟨a, this.1, this.2⟩
  · rintro ⟨a, ha, hpdf⟩
    have hmem : a ∈ (getAttachmentsForItem db itemId).filter (fun a => a.isPdf) :=
      List.mem_filter.mpr ⟨ha, hpdf⟩
    simpa using List.length_pos_of_mem hmem

/-- Store with one item whose single attachment has no raw path and a
non-PDF content type: the SQL summary counts no PDF, but the aggregate
derives the `<key>.pdf` fallback filename and flags it `isPdf`. -/
def c10DB : ZoteroDB :=
  { items := [{ itemID := 1, itemTypeID := 1, libraryID := 1, key := "ITEM" },
              { itemID := 2, itemTypeID := 2, libraryID := 1, key := "ATT1" }]
    itemTypes := [⟨1, "journalArticle"⟩, ⟨2, "attachment"⟩]
    libraries := [⟨1, "user"⟩]
    itemAttachments := [{ itemID := 2, parentItemID := some 1,
                          contentType := some "text/html", linkMode := some 3, path := none }] }

/-- Counterexample to C10 as stated: on `c10DB` the summary reports
`pdfCount = 0` and `hasPdf = false`, while the aggregate holds exactly one
attachment and its `isPdf` flag is true. -/
theorem c10_pdf_count_counterexample :
    (getItemSummary c10DB 1).map (fun s => (s.pdfCount, s.hasPdf)) = some (0, false) ∧
    ((getAttachmentsForItem c10DB 1).filter (fun a => a.isPdf)).length = 1 ∧
    (getAttachmentsForItem c10DB 1).map (fun a => a.isPdf) = [true] :=
  ⟨by decide, by decide, by decide⟩

/-- The single attachment row of `witDB`. -/
def witAttRow : AttachmentRow :=
  { itemID := 11, parentItemID := some 1, contentType := some "application/pdf",
    linkMode := some 0, path := some "storage:paper.pdf" }

/-- Witness for C10 (amended) on the regular fixture store. -/
theorem c10_pdf_count_amended_witness :
    pdfCountOf witDB 1 = ((getAttachmentsForItem witDB 1).filter (fun a => a.isPdf)).length :=
  (c10_pdf_count_amended witDB 1 (by decide)
    (by
      intro r hr
      have hr1 : r = witAttRow := by
        simpa [attachmentRowsOf, witDB, witAttRow] using hr
      exact ⟨"storage:paper.pdf", by rw [hr1]; rfl, by decide, by decide⟩)).1

end ZoteroSpec
